import Mathlib

/-!
# The syscall layer of riscv-pke (`kernel/syscall.c`)

A shallow embedding of the handlers of `kernel/syscall.c` and theorems about them.

Conventions of the embedding.

* Machine integers are natural numbers (or integers, for signed types) with an explicit
  reduction modulo `2 ^ w` at every operation that can overflow.
* `current` (the process being served) is passed explicitly and returned updated.
* The collaborators of the syscall layer (virtual memory, physical page allocator, file
  system) are parameters: functions on a collaborator state that is threaded through.
* A handler yields an `Outcome`: it returns, it takes the fatal path (`assert`, `panic`), or
  it performs an access that C leaves without a defined behaviour (an array index or a
  string access outside the object).
* Constants that are defined in headers outside `kernel/syscall.c` (`PGSIZE`,
  `MAX_HEAP_PAGES`, the `SYS_user_*` numbers, the name-buffer lengths) are parameters.
-/

namespace PKE

/-! ## Outcomes and machine integers -/

/-- What a piece of kernel code does: `ret a` returns `a`; `fatal` is the fatal path
(a failed `assert`, or `panic`), which gives no return value; `undef` is an access outside
an array or a string, for which C defines no behaviour. -/
inductive Outcome (α : Type) where
  | ret (a : α)
  | fatal
  | undef
  deriving DecidableEq

/-- The modulus of `uint64`. -/
def U64 : Nat := 2 ^ 64

/-- The modulus of `uint32`. -/
def U32 : Nat := 2 ^ 32

/-! ## The user heap allocator (`sys_user_allocate_page`, `sys_user_free_page`) -/

/-- The `user_heap` field of a process (`process_heap_manager` in `process.h`):
`heap_top` is a `uint64`; `free_pages_address` is an array of `MAX_HEAP_PAGES` entries of
type `uint64`, modelled as a list whose length is that capacity; `free_pages_count` is the
number of valid entries.  The count is only ever used as an index below the capacity on a
defined path, so its machine width plays no role. -/
structure process_heap_manager where
  heap_top : Nat
  free_pages_address : List Nat
  free_pages_count : Nat
  deriving DecidableEq

/-- The part of the process control block that the heap handlers read and write:
`vm` stands for the state owned by the virtual-memory and physical-page collaborators
(the page table of `current` and the free physical pages), `user_heap` is
`current->user_heap`, and `npages` is `current->mapped_info[HEAP_SEGMENT].npages`
(a `uint32`). -/
structure process (κ : Type) where
  vm : κ
  user_heap : process_heap_manager
  npages : Nat
  deriving DecidableEq

/-- The collaborators called by the heap handlers, as functions on the collaborator state:
`alloc_page()` yields a physical address, `user_vm_map(pagetable, va, size, pa, perm)` and
`user_vm_unmap(pagetable, va, size, free)` edit the page table, `prot_to_type(prot, user)`
computes the permission bits. -/
structure vm_interface (κ : Type) where
  alloc_page : κ → Nat × κ
  user_vm_map : κ → Nat → Nat → Nat → Nat → κ
  user_vm_unmap : κ → Nat → Nat → Nat → κ
  prot_to_type : Nat → Nat → Nat
  PROT_WRITE : Nat
  PROT_READ : Nat

/-- The handler `sys_user_allocate_page` (syscall.c, lines 89-108).  It returns the chosen
virtual address together with the updated process. -/
def sys_user_allocate_page {κ : Type} (PGSIZE : Nat) (V : vm_interface κ)
    (cur : process κ) : Outcome (Nat × process κ) :=
  let pa := (V.alloc_page cur.vm).1
  let vm1 := (V.alloc_page cur.vm).2
  let perm := V.prot_to_type (V.PROT_WRITE ||| V.PROT_READ) 1
  if 0 < cur.user_heap.free_pages_count then
    -- va = free_pages_address[--free_pages_count]
    let cnt := cur.user_heap.free_pages_count - 1
    match cur.user_heap.free_pages_address[cnt]? with
    | none => Outcome.undef
    | some va =>
      -- assert(va < heap_top)
      if va < cur.user_heap.heap_top then
        Outcome.ret (va,
          { vm := V.user_vm_map vm1 va PGSIZE pa perm
            user_heap := { cur.user_heap with free_pages_count := cnt }
            npages := cur.npages })
      else Outcome.fatal
  else
    -- va = heap_top; heap_top += PGSIZE; npages++
    let va := cur.user_heap.heap_top
    Outcome.ret (va,
      { vm := V.user_vm_map vm1 va PGSIZE pa perm
        user_heap := { cur.user_heap with heap_top := (cur.user_heap.heap_top + PGSIZE) % U64 }
        npages := (cur.npages + 1) % U32 })

/-- The handler `sys_user_free_page` (syscall.c, lines 113-118).  The store
`free_pages_address[free_pages_count++] = va` has a defined behaviour only when the index
is below the capacity of the array. -/
def sys_user_free_page {κ : Type} (PGSIZE : Nat) (V : vm_interface κ)
    (cur : process κ) (va : Nat) : Outcome (Nat × process κ) :=
  let vm1 := V.user_vm_unmap cur.vm va PGSIZE 1
  if cur.user_heap.free_pages_count < cur.user_heap.free_pages_address.length then
    Outcome.ret (0,
      { vm := vm1
        user_heap :=
          { cur.user_heap with
            free_pages_address :=
              cur.user_heap.free_pages_address.set cur.user_heap.free_pages_count va
            free_pages_count := cur.user_heap.free_pages_count + 1 }
        npages := cur.npages })
  else Outcome.undef

/-- The call `sys_user_free_page(va)` followed immediately by `sys_user_allocate_page()`;
the outcome is that of the allocation. -/
def free_then_allocate {κ : Type} (PGSIZE : Nat) (V : vm_interface κ)
    (cur : process κ) (va : Nat) : Outcome (Nat × process κ) :=
  match sys_user_free_page PGSIZE V cur va with
  | Outcome.ret (_, cur1) => sys_user_allocate_page PGSIZE V cur1
  | Outcome.fatal => Outcome.fatal
  | Outcome.undef => Outcome.undef

/-- One call of the user-heap interface. -/
inductive heap_call where
  | allocate
  | free (va : Nat)
  deriving DecidableEq

/-- Performs one heap call on `cur`. -/
def heap_step {κ : Type} (PGSIZE : Nat) (V : vm_interface κ)
    (c : heap_call) (cur : process κ) : Outcome (Nat × process κ) :=
  match c with
  | heap_call.allocate => sys_user_allocate_page PGSIZE V cur
  | heap_call.free va => sys_user_free_page PGSIZE V cur va

/-- Runs a finite sequence of heap calls, one after the other.  The run returns when every
call returns. -/
def run_heap_calls {κ : Type} (PGSIZE : Nat) (V : vm_interface κ) :
    List heap_call → process κ → Outcome (process κ)
  | [], cur => Outcome.ret cur
  | c :: cs, cur =>
    match heap_step PGSIZE V c cur with
    | Outcome.ret (_, cur1) => run_heap_calls PGSIZE V cs cur1
    | Outcome.fatal => Outcome.fatal
    | Outcome.undef => Outcome.undef

/-- A collaborator with no state: physical pages are handed out at address `0` and the page
table is not recorded.  Used to evaluate the handlers on concrete heaps. -/
def unit_vm : vm_interface Unit where
  alloc_page := fun _ => (0, ())
  user_vm_map := fun _ _ _ _ _ => ()
  user_vm_unmap := fun _ _ _ _ => ()
  prot_to_type := fun p _ => p
  PROT_WRITE := 2
  PROT_READ := 1

/-- A heap with watermark `top`, a free-list of capacity `cap` holding no entry, and
`n` pages accounted to the heap segment. -/
def fresh_heap (top cap n : Nat) : process Unit where
  vm := ()
  user_heap := { heap_top := top, free_pages_address := List.replicate cap 0,
                 free_pages_count := 0 }
  npages := n

/-! ## The chunked stream copier (`sys_user_read`, `sys_user_write`) -/

/-- Conversion of a signed integer to `uint64` (what C does when an `int`, a `long` or an
`ssize_t` meets a `uint64` operand): the value modulo `2 ^ 64`. -/
def to_u64 (z : Int) : Nat := (z % (U64 : Int)).toNat

/-- Conversion of an unsigned value to `int` (32 bits, two's complement): the low 32 bits,
read as a signed number. -/
def to_int32 (n : Nat) : Int :=
  if n % U32 < 2 ^ 31 then ((n % U32 : Nat) : Int) else ((n % U32 : Nat) : Int) - (U32 : Int)

/-- Conversion of a `uint64` to a signed 64-bit type (`long`, `ssize_t`). -/
def to_int64 (n : Nat) : Int :=
  if n % U64 < 2 ^ 63 then ((n % U64 : Nat) : Int) else ((n % U64 : Nat) : Int) - (U64 : Int)

/-- Subtraction of two `uint64` values. -/
def sub64 (a b : Nat) : Nat := (a + U64 - b % U64) % U64

/-- Modelled from the spec: the macro `ROUNDDOWN` of `util/functions.h`, which is not among
the sources.  The spec gives `off = addr - ROUNDDOWN(addr, PGSIZE)` as the offset of `addr`
in its page, `addr mod PGSIZE`; `ROUNDDOWN(a, n)` is `a` rounded down to a multiple of
`n`. -/
def ROUNDDOWN (a n : Nat) : Nat := a / n * n

/-- One call of the file collaborator issued by the chunk loop: `i` is the offset (the
value of the loop variable, as a `uint64`) at which it was issued, `off` the offset of
`bufva + i` in its page, `ptr` the kernel pointer `pa + off` handed over, `len` the
length asked for, and `r` the collaborator's answer as stored in `uint64 r`. -/
structure io_call where
  i : Nat
  off : Nat
  ptr : Nat
  len : Nat
  r : Nat
  deriving DecidableEq

/-- What a run of `sys_user_read` / `sys_user_write` produced: the value returned (an
`ssize_t`; `none` when the run was cut before the function returned), the collaborator
calls issued, in order, and the collaborator state. -/
structure rw_result (σ : Type) where
  value : Option Int
  calls : List io_call
  fs : σ
  deriving DecidableEq

/-- The loop shared, word for word, by `sys_user_read` (syscall.c, lines 166-177) and
`sys_user_write` (lines 182-193); `io` is `do_read`, respectively `do_write`, and
`lookup_pa` the address translation of the page table of `current`.  The state of the loop
is the `int i` and the collaborator state.  `fuel` bounds the number of evaluations of the
loop condition: when the bound is reached the run is cut, with no value returned. -/
def rw_loop {σ : Type} (PGSIZE : Nat) (lookup_pa : Nat → Nat)
    (io : σ → Int → Nat → Nat → Int × σ) (fd : Int) (bufva count : Nat) :
    Nat → Int → σ → rw_result σ
  | 0, _, s => { value := none, calls := [], fs := s }
  | fuel + 1, i, s =>
    -- while (i < count): the int is converted to uint64
    if to_u64 i < count then
      let addr := (bufva + to_u64 i) % U64
      let pa := lookup_pa addr
      let off := sub64 addr (ROUNDDOWN addr PGSIZE)
      let len := if sub64 count (to_u64 i) < sub64 PGSIZE off
                 then sub64 count (to_u64 i) else sub64 PGSIZE off
      let res := io s fd ((pa + off) % U64) len
      -- uint64 r = do_read(...)
      let r := to_u64 res.1
      -- i += r
      let i1 := to_int32 ((to_u64 i + r) % U64)
      let c : io_call :=
        { i := to_u64 i, off := off, ptr := (pa + off) % U64, len := len, r := r }
      -- if (r < len) return i;
      if r < len then { value := some i1, calls := [c], fs := res.2 }
      else
        let out := rw_loop PGSIZE lookup_pa io fd bufva count fuel i1 res.2
        { out with calls := c :: out.calls }
    else
      -- return count;
      { value := some (to_int64 count), calls := [], fs := s }

/-- The file-system collaborator, as functions on its state `σ`: each takes the
collaborator state first and yields its `int` result and the new state.  Paths are handed
over as the C string found at the pointer.  `opened_files` is the table
`current->pfiles->opened_files`, each entry given by its `f_dentry` pointer. -/
structure file_interface (σ : Type) (δ : Type) where
  do_read : σ → Int → Nat → Nat → Int × σ
  do_write : σ → Int → Nat → Nat → Int × σ
  do_open : σ → List Char → Int → Int × σ
  do_opendir : σ → List Char → Int × σ
  do_closedir : σ → Int → Int × σ
  opened_files : σ → List (Option δ)

/-- The handler `sys_user_read` (syscall.c, lines 166-177), run with `fuel` evaluations of
the loop condition. -/
def sys_user_read {σ δ : Type} (PGSIZE : Nat) (lookup_pa : Nat → Nat)
    (F : file_interface σ δ) (fuel : Nat) (fd : Int) (bufva count : Nat) (s : σ) :
    rw_result σ :=
  rw_loop PGSIZE lookup_pa F.do_read fd bufva count fuel 0 s

/-- The handler `sys_user_write` (syscall.c, lines 182-193), run with `fuel` evaluations of
the loop condition. -/
def sys_user_write {σ δ : Type} (PGSIZE : Nat) (lookup_pa : Nat → Nat)
    (F : file_interface σ δ) (fuel : Nat) (fd : Int) (bufva count : Nat) (s : σ) :
    rw_result σ :=
  rw_loop PGSIZE lookup_pa F.do_write fd bufva count fuel 0 s

/-- The bytes transferred by the calls of a run, summed (each `r` as the `uint64` it was
stored in). -/
def bytes_transferred (calls : List io_call) : Nat := (calls.map io_call.r).sum

/-- The number of pages touched by the byte range `[bufva, bufva + count)`: none when the
range is empty, else the number of page frames between the first and the last byte. -/
def pages_touched (PGSIZE bufva count : Nat) : Nat :=
  if count = 0 then 0 else (bufva + count - 1) / PGSIZE - bufva / PGSIZE + 1

/-- An address translation used to evaluate the handlers: every page is mapped to the
physical page at the same address (`lookup_pa` yields the base of the physical page). -/
def identity_map (PGSIZE : Nat) : Nat → Nat := fun va => ROUNDDOWN va PGSIZE

/-- A file collaborator without state whose every call transfers all the bytes asked
for. -/
def full_io : Unit → Int → Nat → Nat → Int × Unit := fun _ _ _ len => ((len : Int), ())

/-- A file collaborator without state whose every call fails with the error code `e`. -/
def failing_io (e : Int) : Unit → Int → Nat → Nat → Int × Unit := fun _ _ _ _ => (e, ())

/-- A file collaborator whose state is the number of bytes left before the end of the
file: each call transfers `min len left` bytes. -/
def bounded_io : Nat → Int → Nat → Nat → Int × Nat :=
  fun left _ _ len => (((min len left : Nat) : Int), left - min len left)

/-- A file interface over `Unit` dentries built from a read and a write function; the other
operations fail with `-1`. -/
def rw_interface {σ : Type} (rd wr : σ → Int → Nat → Nat → Int × σ) :
    file_interface σ Unit where
  do_read := rd
  do_write := wr
  do_open := fun s _ _ => (-1, s)
  do_opendir := fun s _ => (-1, s)
  do_closedir := fun s _ => (-1, s)
  opened_files := fun _ => []

/-- The file interface whose reads and writes transfer every chunk in full. -/
def full_files : file_interface Unit Unit := rw_interface full_io full_io

/-- The file interface whose reads and writes fail with the error code `e`. -/
def failing_files (e : Int) : file_interface Unit Unit :=
  rw_interface (failing_io e) (failing_io e)

/-- The file interface of a file (read or written) with a given number of bytes left. -/
def bounded_files : file_interface Nat Unit := rw_interface bounded_io bounded_io

/-- The identity translation for pages of 4096 bytes. -/
def page_map : Nat → Nat := identity_map 4096

/-! ## C strings, directory entries and the path resolver -/

/-- Sequencing of outcomes: the second step runs when the first one returned. -/
def Outcome.bind {α β : Type} (x : Outcome α) (f : α → Outcome β) : Outcome β :=
  match x with
  | Outcome.ret a => f a
  | Outcome.fatal => Outcome.fatal
  | Outcome.undef => Outcome.undef

/-- The terminator of a C string. -/
def NUL : Char := Char.ofNat 0

/-- The C string found at a pointer.  The argument lists the characters stored from the
pointer to the end of the object it points into; the string is made of the characters
before the first `NUL`.  Without a `NUL` the read runs off the object: `none`. -/
def c_str : List Char → Option (List Char)
  | [] => none
  | c :: cs =>
    if c = NUL then some []
    else
      match c_str cs with
      | none => none
      | some t => some (c :: t)

/-- The call `strcpy(dst, src)` into a buffer of `cap` bytes: the buffer then holds `src`,
when `src` and its terminator fit. -/
def strcpy (cap : Nat) (src : List Char) : Outcome (List Char) :=
  if src.length + 1 ≤ cap then Outcome.ret src else Outcome.undef

/-- The call `strcat(dst, src)` on a buffer of `cap` bytes that holds the string `dst`: the
buffer then holds `dst` followed by `src`, when both and the terminator fit. -/
def strcat (cap : Nat) (dst src : List Char) : Outcome (List Char) :=
  if dst.length + src.length + 1 ≤ cap then Outcome.ret (dst ++ src) else Outcome.undef

/-- The call `strcat(dst, p)` where `p` is a pointer, given by the characters stored from it
on: the C string at `p` is read first. -/
def strcat_ptr (cap : Nat) (dst p : List Char) : Outcome (List Char) :=
  match c_str p with
  | none => Outcome.undef
  | some src => strcat cap dst src

/-- A directory entry (`struct dentry`), with the two fields the syscall layer reads: its
`name` (the C string held by the name array) and its `parent`.  `root` is an entry whose
`parent` is `NULL`; `child` is an entry whose `parent` points to another entry.  A pointer
to a dentry is an `Option dentry`, `none` being `NULL`. -/
inductive dentry where
  | root (name : List Char)
  | child (name : List Char) (parent : dentry)
  deriving DecidableEq

/-- The field `name` of a directory entry. -/
def dentry.name : dentry → List Char
  | dentry.root name => name
  | dentry.child name _ => name

/-- The field `parent` of a directory entry. -/
def dentry.parent : dentry → Option dentry
  | dentry.root _ => none
  | dentry.child _ parent => some parent

/-- The loop `while (current_dir) { ... }` of `sys_user_relative_path_to_absolute`
(syscall.c, lines 47-56), entered with `current_dir` pointing to an entry: append the name
of the entry, append `"/"` when it has a parent, and go on with the parent. -/
def absolute_walk (cap : Nat) : dentry → List Char → Outcome (List Char)
  | dentry.root name, abs => strcat cap abs name
  | dentry.child name parent, abs =>
    (strcat cap abs name).bind fun abs1 =>
      (strcat cap abs1 [ '/' ]).bind fun abs2 => absolute_walk cap parent abs2

/-- The same loop for an arbitrary pointer: no iteration when `current_dir` is `NULL`. -/
def absolute_loop (cap : Nat) : Option dentry → List Char → Outcome (List Char)
  | none, abs => Outcome.ret abs
  | some d, abs => absolute_walk cap d abs

/-- Lines 43-70 of `sys_user_relative_path_to_absolute`: what happens once `current_dir`
and `relativepath` are settled.  `cap` is the size of the buffer `absolutepath`. -/
def absolute_from (MAX_DENTRY_NAME_LEN cap : Nat) (current_dir : Option dentry)
    (relativepath : List Char) : Outcome (List Char) :=
  -- memset(absolutepath, 0, MAX_DENTRY_NAME_LEN); strcpy(absolutepath, "/")
  if MAX_DENTRY_NAME_LEN ≤ cap then
    (strcpy cap [ '/' ]).bind fun abs0 =>
      (absolute_loop cap current_dir abs0).bind fun abs =>
        match relativepath[0]? with
        | none => Outcome.undef
        | some c0 =>
          if c0 = '.' then
            match relativepath[1]? with
            | none => Outcome.undef
            | some c1 =>
              if c1 = '.' then strcat_ptr cap abs (relativepath.drop 3)
              else strcat_ptr cap abs (relativepath.drop 2)
          else strcat_ptr cap abs relativepath
  else Outcome.undef

/-- The function `sys_user_relative_path_to_absolute` (syscall.c, lines 34-71).  `cwd` is
`current->pfiles->cwd`, `relativepath` lists the characters stored from the pointer
`relativepath` on, `cap` is the size of the buffer `absolutepath`; the result is the string
that `absolutepath` holds at the end. -/
def sys_user_relative_path_to_absolute (MAX_DENTRY_NAME_LEN cap : Nat)
    (cwd : Option dentry) (relativepath : List Char) : Outcome (List Char) :=
  match relativepath[0]? with
  | none => Outcome.undef
  | some c0 =>
    if c0 = '.' then
      match relativepath[1]? with
      | none => Outcome.undef
      | some c1 =>
        if c1 = '.' then
          -- current_dir = current_dir->parent; relativepath += 2
          match cwd with
          | none => Outcome.undef
          | some d => absolute_from MAX_DENTRY_NAME_LEN cap d.parent (relativepath.drop 2)
        else absolute_from MAX_DENTRY_NAME_LEN cap cwd relativepath
    else absolute_from MAX_DENTRY_NAME_LEN cap cwd relativepath

/-- The loop `while (cwd->parent != NULL) { ... }` of `sys_user_rcwd` (syscall.c,
lines 286-291) on the local buffer `path` of `cap` bytes. -/
def rcwd_loop (cap : Nat) : dentry → List Char → Outcome (List Char)
  | dentry.root _, path => Outcome.ret path
  | dentry.child name parent, path =>
    (strcat cap path [ '/' ]).bind fun path1 =>
      (strcat cap path1 name).bind fun path2 => rcwd_loop cap parent path2

/-- The handler `sys_user_rcwd` (syscall.c, lines 267-295).  `cwd` is
`current->pfiles->cwd` and `ucap` the size of the buffer the caller supplied; the result is
the string written to that buffer. -/
def sys_user_rcwd (MAX_DEVICE_NAME_LEN MAX_DENTRY_NAME_LEN ucap : Nat)
    (cwd : Option dentry) : Outcome (List Char) :=
  -- memset(pa, 0, MAX_DENTRY_NAME_LEN)
  if MAX_DENTRY_NAME_LEN ≤ ucap then
    match cwd with
    | none => Outcome.undef
    | some d =>
      match d.parent with
      | none => strcpy ucap [ '/' ]
      | some _ => (rcwd_loop MAX_DEVICE_NAME_LEN d []).bind fun path => strcpy ucap path
  else Outcome.undef

/-- The handler `sys_user_open` (syscall.c, lines 147-160).  `kmem pa` lists the characters
stored from the kernel pointer `pa` on, `user_va_to_pa` is the translation for the page
table of `current`; the local buffer `absolute` has `MAX_DENTRY_NAME_LEN` bytes. -/
def sys_user_open {σ : Type} (MAX_DENTRY_NAME_LEN : Nat) (F : file_interface σ dentry)
    (kmem : Nat → List Char) (user_va_to_pa : Nat → Nat) (cwd : Option dentry)
    (pathva : Nat) (flags : Int) (s : σ) : Outcome (Int × σ) :=
  let pa := kmem (user_va_to_pa pathva)
  match pa[0]? with
  | none => Outcome.undef
  | some c0 =>
    if c0 = '.' then
      (sys_user_relative_path_to_absolute MAX_DENTRY_NAME_LEN MAX_DENTRY_NAME_LEN cwd pa).bind
        fun absolute => Outcome.ret (F.do_open s absolute flags)
    else
      match c_str pa with
      | none => Outcome.undef
      | some path => Outcome.ret (F.do_open s path flags)

/-- The handler `sys_user_ccwd` (syscall.c, lines 298-317).  The local buffer `path` has
`MAX_DEVICE_NAME_LEN` bytes.  The result is the new value of `current->pfiles->cwd` and
the collaborator state; the read `opened_files[tmp]` has a defined behaviour only for an
index inside the table. -/
def sys_user_ccwd {σ : Type} (MAX_DEVICE_NAME_LEN MAX_DENTRY_NAME_LEN : Nat)
    (F : file_interface σ dentry) (kmem : Nat → List Char) (user_va_to_pa : Nat → Nat)
    (cwd : Option dentry) (path_to : Nat) (s : σ) : Outcome (Option dentry × σ) :=
  let pa := kmem (user_va_to_pa path_to)
  (sys_user_relative_path_to_absolute MAX_DENTRY_NAME_LEN MAX_DEVICE_NAME_LEN cwd pa).bind
    fun path =>
      let tmp := (F.do_opendir s path).1
      let s1 := (F.do_opendir s path).2
      if 0 ≤ tmp then
        match (F.opened_files s1)[tmp.toNat]? with
        | none => Outcome.undef
        | some f_dentry => Outcome.ret (f_dentry, (F.do_closedir s1 tmp).2)
      else Outcome.undef

/-- The directory tree of the scenarios: the root, named `"/"`. -/
def root_dir : dentry := dentry.root [ '/' ]

/-- The directory `/a`. -/
def dir_a : dentry := dentry.child [ 'a' ] root_dir

/-- The directory `/a/b`. -/
def dir_a_b : dentry := dentry.child [ 'b' ] dir_a

/-- The names of the entries from just below the root down to `d`, in root-to-leaf
order. -/
def dentry.names_below_root : dentry → List (List Char)
  | dentry.root _ => []
  | dentry.child name parent => parent.names_below_root ++ [name]

/-- The absolute path of an entry written root-to-leaf: `"/"` for the root and
`"/n1/.../nk"` for the entry whose names below the root are `n1, ..., nk`. -/
def dentry.absolute_path (d : dentry) : List Char :=
  match d.names_below_root with
  | [] => [ '/' ]
  | ns => (ns.map fun n => '/' :: n).flatten

/-- The string that the loop of `sys_user_relative_path_to_absolute` appends when it starts
at the entry `d`: the names from `d` up to the root, leaf first, each followed by `"/"`
except the name of the root. -/
def dentry.walk_string : dentry → List Char
  | dentry.root name => name
  | dentry.child name parent => name ++ [ '/' ] ++ parent.walk_string

/-- The string that the loop of `sys_user_rcwd` builds when it starts at the entry `d`: the
names from `d` up to the entry just below the root, leaf first, each preceded by `"/"`. -/
def dentry.leaf_to_root_path : dentry → List Char
  | dentry.root _ => []
  | dentry.child name parent => [ '/' ] ++ name ++ parent.leaf_to_root_path

/-- The string that `sys_user_rcwd` writes for the working directory `d`, when it fits:
`"/"` for the root, and for another entry the names from the entry up to just below the
root, leaf first, each preceded by `"/"`. -/
def dentry.rcwd_string : dentry → List Char
  | dentry.root _ => [ '/' ]
  | dentry.child name parent => (dentry.child name parent).leaf_to_root_path

/-- The string appended by the loop for a pointer. -/
def walk_string_of : Option dentry → List Char
  | none => []
  | some d => d.walk_string

/-! ## The dispatcher (`do_syscall`) -/

/-- The syscall numbers `SYS_user_*` of `syscall.h`, which is not among the sources. -/
structure syscall_numbers where
  SYS_user_print : Int
  SYS_user_exit : Int
  SYS_user_allocate_page : Int
  SYS_user_free_page : Int
  SYS_user_fork : Int
  SYS_user_yield : Int
  SYS_user_open : Int
  SYS_user_read : Int
  SYS_user_write : Int
  SYS_user_lseek : Int
  SYS_user_stat : Int
  SYS_user_disk_stat : Int
  SYS_user_close : Int
  SYS_user_opendir : Int
  SYS_user_readdir : Int
  SYS_user_mkdir : Int
  SYS_user_closedir : Int
  SYS_user_link : Int
  SYS_user_unlink : Int
  SYS_user_rcwd : Int
  SYS_user_ccwd : Int

/-- The numbers that label a case of the switch of `do_syscall`, in the order of the
cases. -/
def syscall_numbers.handled (N : syscall_numbers) : List Int :=
  [N.SYS_user_print,
   N.SYS_user_exit,
   N.SYS_user_allocate_page,
   N.SYS_user_free_page,
   N.SYS_user_fork,
   N.SYS_user_yield,
   N.SYS_user_open,
   N.SYS_user_read,
   N.SYS_user_write,
   N.SYS_user_lseek,
   N.SYS_user_stat,
   N.SYS_user_disk_stat,
   N.SYS_user_close,
   N.SYS_user_opendir,
   N.SYS_user_readdir,
   N.SYS_user_mkdir,
   N.SYS_user_closedir,
   N.SYS_user_link,
   N.SYS_user_unlink,
   N.SYS_user_rcwd,
   N.SYS_user_ccwd]

/-- The case labels of a C switch are pairwise different. -/
@[reducible] def syscall_numbers.distinct (N : syscall_numbers) : Prop := N.handled.Nodup

/-- The handlers that `do_syscall` calls, each taking the argument words that the switch
forwards to it (as the `long` values received; the casts to the parameter types are part of
the handler) and the kernel state.  The two heap handlers return a `uint64`, `sys_user_rcwd`
and `sys_user_ccwd` return nothing, the others return an `ssize_t`. -/
structure syscall_handlers (K : Type) where
  sys_user_print : Int → Int → K → Outcome (Int × K)
  sys_user_exit : Int → K → Outcome (Int × K)
  sys_user_allocate_page : K → Outcome (Nat × K)
  sys_user_free_page : Int → K → Outcome (Nat × K)
  sys_user_fork : K → Outcome (Int × K)
  sys_user_yield : K → Outcome (Int × K)
  sys_user_open : Int → Int → K → Outcome (Int × K)
  sys_user_read : Int → Int → Int → K → Outcome (Int × K)
  sys_user_write : Int → Int → Int → K → Outcome (Int × K)
  sys_user_lseek : Int → Int → Int → K → Outcome (Int × K)
  sys_user_stat : Int → Int → K → Outcome (Int × K)
  sys_user_disk_stat : Int → Int → K → Outcome (Int × K)
  sys_user_close : Int → K → Outcome (Int × K)
  sys_user_opendir : Int → K → Outcome (Int × K)
  sys_user_readdir : Int → Int → K → Outcome (Int × K)
  sys_user_mkdir : Int → K → Outcome (Int × K)
  sys_user_closedir : Int → K → Outcome (Int × K)
  sys_user_link : Int → Int → K → Outcome (Int × K)
  sys_user_unlink : Int → K → Outcome (Int × K)
  sys_user_rcwd : Int → K → Outcome (Unit × K)
  sys_user_ccwd : Int → K → Outcome (Unit × K)

/-- The statement `return h(...)` of `do_syscall` for a handler that returns a `uint64`:
the value is converted to `long`. -/
def return_u64 {K : Type} (x : Outcome (Nat × K)) : Outcome (Int × K) :=
  match x with
  | Outcome.ret (v, s) => Outcome.ret (to_int64 v, s)
  | Outcome.fatal => Outcome.fatal
  | Outcome.undef => Outcome.undef

/-- The statements `h(...); return 0;` of `do_syscall` for a handler that returns
nothing. -/
def return_zero {K : Type} (x : Outcome (Unit × K)) : Outcome (Int × K) :=
  match x with
  | Outcome.ret (_, s) => Outcome.ret (0, s)
  | Outcome.fatal => Outcome.fatal
  | Outcome.undef => Outcome.undef

/-- The dispatcher `do_syscall` (syscall.c, lines 333-386): the switch on `a0`, case by
case in the order of the source, with `panic` as the default. -/
def do_syscall {K : Type} (N : syscall_numbers) (H : syscall_handlers K)
    (a0 a1 a2 a3 _a4 _a5 _a6 _a7 : Int) (s : K) : Outcome (Int × K) :=
  if a0 = N.SYS_user_print then H.sys_user_print a1 a2 s
  else if a0 = N.SYS_user_exit then H.sys_user_exit a1 s
  else if a0 = N.SYS_user_allocate_page then return_u64 (H.sys_user_allocate_page s)
  else if a0 = N.SYS_user_free_page then return_u64 (H.sys_user_free_page a1 s)
  else if a0 = N.SYS_user_fork then H.sys_user_fork s
  else if a0 = N.SYS_user_yield then H.sys_user_yield s
  else if a0 = N.SYS_user_open then H.sys_user_open a1 a2 s
  else if a0 = N.SYS_user_read then H.sys_user_read a1 a2 a3 s
  else if a0 = N.SYS_user_write then H.sys_user_write a1 a2 a3 s
  else if a0 = N.SYS_user_lseek then H.sys_user_lseek a1 a2 a3 s
  else if a0 = N.SYS_user_stat then H.sys_user_stat a1 a2 s
  else if a0 = N.SYS_user_disk_stat then H.sys_user_disk_stat a1 a2 s
  else if a0 = N.SYS_user_close then H.sys_user_close a1 s
  else if a0 = N.SYS_user_opendir then H.sys_user_opendir a1 s
  else if a0 = N.SYS_user_readdir then H.sys_user_readdir a1 a2 s
  else if a0 = N.SYS_user_mkdir then H.sys_user_mkdir a1 s
  else if a0 = N.SYS_user_closedir then H.sys_user_closedir a1 s
  else if a0 = N.SYS_user_link then H.sys_user_link a1 a2 s
  else if a0 = N.SYS_user_unlink then H.sys_user_unlink a1 s
  else if a0 = N.SYS_user_rcwd then return_zero (H.sys_user_rcwd a1 s)
  else if a0 = N.SYS_user_ccwd then return_zero (H.sys_user_ccwd a1 s)
  else Outcome.fatal

/-- The numbering used to evaluate the dispatcher: the cases are numbered from 64 on, in the
order of the switch. -/
def sample_numbers : syscall_numbers :=
  ⟨64, 65, 66, 67, 68, 69, 70, 71, 72, 73, 74, 75, 76, 77, 78, 79, 80, 81, 82, 83, 84⟩

/-- Handlers used to evaluate the dispatcher: the kernel state is a number; the handler of
the case number `k` of the switch (counted from 1) leaves `k` as the state, and returns
`100 + k` when it returns a value. -/
def sample_handlers : syscall_handlers Nat where
  sys_user_print := fun _ _ _ => Outcome.ret ((101 : Int), (1 : Nat))
  sys_user_exit := fun _ _ => Outcome.ret ((102 : Int), (2 : Nat))
  sys_user_allocate_page := fun _ => Outcome.ret ((103 : Nat), (3 : Nat))
  sys_user_free_page := fun _ _ => Outcome.ret ((104 : Nat), (4 : Nat))
  sys_user_fork := fun _ => Outcome.ret ((105 : Int), (5 : Nat))
  sys_user_yield := fun _ => Outcome.ret ((106 : Int), (6 : Nat))
  sys_user_open := fun _ _ _ => Outcome.ret ((107 : Int), (7 : Nat))
  sys_user_read := fun _ _ _ _ => Outcome.ret ((108 : Int), (8 : Nat))
  sys_user_write := fun _ _ _ _ => Outcome.ret ((109 : Int), (9 : Nat))
  sys_user_lseek := fun _ _ _ _ => Outcome.ret ((110 : Int), (10 : Nat))
  sys_user_stat := fun _ _ _ => Outcome.ret ((111 : Int), (11 : Nat))
  sys_user_disk_stat := fun _ _ _ => Outcome.ret ((112 : Int), (12 : Nat))
  sys_user_close := fun _ _ => Outcome.ret ((113 : Int), (13 : Nat))
  sys_user_opendir := fun _ _ => Outcome.ret ((114 : Int), (14 : Nat))
  sys_user_readdir := fun _ _ _ => Outcome.ret ((115 : Int), (15 : Nat))
  sys_user_mkdir := fun _ _ => Outcome.ret ((116 : Int), (16 : Nat))
  sys_user_closedir := fun _ _ => Outcome.ret ((117 : Int), (17 : Nat))
  sys_user_link := fun _ _ _ => Outcome.ret ((118 : Int), (18 : Nat))
  sys_user_unlink := fun _ _ => Outcome.ret ((119 : Int), (19 : Nat))
  sys_user_rcwd := fun _ _ => Outcome.ret ((), (20 : Nat))
  sys_user_ccwd := fun _ _ => Outcome.ret ((), (21 : Nat))

/-- A file collaborator answers within bounds when each call transfers between `0` and the
`len` bytes asked for. -/
def io_within_bounds {σ : Type} (io : σ → Int → Nat → Nat → Int × σ) : Prop :=
  ∀ (s : σ) (fd : Int) (ptr len : Nat),
    0 ≤ (io s fd ptr len).1 ∧ (io s fd ptr len).1 ≤ (len : Int)

/-! ## Collaborators and handler tables used to evaluate the path handlers -/

/-- A file interface that records the paths it is handed: the state lists the paths passed
to `do_open` and `do_opendir`, latest first; both answer with the descriptor `fd`;
`do_closedir` answers 0; the open-file table has two entries, whose `f_dentry` point to the
root and to `/a`. -/
def probe_files (fd : Int) : file_interface (List (List Char)) dentry where
  do_read := fun s _ _ _ => (0, s)
  do_write := fun s _ _ _ => (0, s)
  do_open := fun s path _ => (fd, path :: s)
  do_opendir := fun s path => (fd, path :: s)
  do_closedir := fun s _ => (0, s)
  opened_files := fun _ => [some root_dir, some dir_a]

/-- Handlers that do nothing: each leaves the kernel state as it is and returns 0 (or
nothing). -/
def idle_handlers (K : Type) : syscall_handlers K where
  sys_user_print := fun _ _ s => Outcome.ret (0, s)
  sys_user_exit := fun _ s => Outcome.ret (0, s)
  sys_user_allocate_page := fun s => Outcome.ret (0, s)
  sys_user_free_page := fun _ s => Outcome.ret (0, s)
  sys_user_fork := fun s => Outcome.ret (0, s)
  sys_user_yield := fun s => Outcome.ret (0, s)
  sys_user_open := fun _ _ s => Outcome.ret (0, s)
  sys_user_read := fun _ _ _ s => Outcome.ret (0, s)
  sys_user_write := fun _ _ _ s => Outcome.ret (0, s)
  sys_user_lseek := fun _ _ _ s => Outcome.ret (0, s)
  sys_user_stat := fun _ _ s => Outcome.ret (0, s)
  sys_user_disk_stat := fun _ _ s => Outcome.ret (0, s)
  sys_user_close := fun _ s => Outcome.ret (0, s)
  sys_user_opendir := fun _ s => Outcome.ret (0, s)
  sys_user_readdir := fun _ _ s => Outcome.ret (0, s)
  sys_user_mkdir := fun _ s => Outcome.ret (0, s)
  sys_user_closedir := fun _ s => Outcome.ret (0, s)
  sys_user_link := fun _ _ s => Outcome.ret (0, s)
  sys_user_unlink := fun _ s => Outcome.ret (0, s)
  sys_user_rcwd := fun _ s => Outcome.ret ((), s)
  sys_user_ccwd := fun _ s => Outcome.ret ((), s)

/-- The call `sys_user_ccwd((char *)a1)` of `do_syscall` (syscall.c, line 381), on a kernel
state made of `current->pfiles->cwd` and the collaborator state: the handler returns
nothing and leaves the new working directory in the state. -/
def ccwd_entry {σ : Type} (MAX_DEVICE_NAME_LEN MAX_DENTRY_NAME_LEN : Nat)
    (F : file_interface σ dentry) (kmem : Nat → List Char) (user_va_to_pa : Nat → Nat)
    (a1 : Int) (st : Option dentry × σ) : Outcome (Unit × (Option dentry × σ)) :=
  (sys_user_ccwd MAX_DEVICE_NAME_LEN MAX_DENTRY_NAME_LEN F kmem user_va_to_pa st.1
      (to_u64 a1) st.2).bind
    fun r => Outcome.ret ((), r)

/-- The handler table in which `sys_user_ccwd` is the handler of syscall.c and the other
handlers do nothing. -/
def ccwd_handlers {σ : Type} (MAX_DEVICE_NAME_LEN MAX_DENTRY_NAME_LEN : Nat)
    (F : file_interface σ dentry) (kmem : Nat → List Char) (user_va_to_pa : Nat → Nat) :
    syscall_handlers (Option dentry × σ) :=
  { idle_handlers (Option dentry × σ) with
    sys_user_ccwd :=
      ccwd_entry MAX_DEVICE_NAME_LEN MAX_DENTRY_NAME_LEN F kmem user_va_to_pa }

/-- A kernel memory that holds the string `"a"` at every address. -/
def mem_a : Nat → List Char := fun _ => [ 'a', NUL ]

/-- A kernel memory that holds the string `"./a"` at every address. -/
def mem_dot_a : Nat → List Char := fun _ => [ '.', '/', 'a', NUL ]

/-! ## Theorems: the user heap allocator -/

/-- C1, counterexample: on a heap whose watermark is `0x400000` and whose free-list is
empty, freeing the address `0x7fffe000` (a page above the watermark, where the user stack
lies) and allocating right after does not return that address: the allocation fails its
assertion `va < heap_top` and takes the fatal path. -/
theorem free_then_allocate_fatal_above_watermark :
    free_then_allocate 4096 unit_vm (fresh_heap 0x400000 32 0) 0x7fffe000
      = Outcome.fatal := by
  decide

/-- C1, amended: when the free-list has room for one more entry and `va` lies below
`heap_top`, `sys_user_free_page(va)` followed immediately by `sys_user_allocate_page()`
makes the allocation return exactly `va`. -/
theorem free_then_allocate_returns_freed {κ : Type} (PGSIZE : Nat) (V : vm_interface κ)
    (cur : process κ) (va : Nat)
    (hroom : cur.user_heap.free_pages_count < cur.user_heap.free_pages_address.length)
    (hbelow : va < cur.user_heap.heap_top) :
    ∃ cur1, free_then_allocate PGSIZE V cur va = Outcome.ret (va, cur1) := by
  simp [free_then_allocate, sys_user_free_page, sys_user_allocate_page, hroom, hbelow]

/-- Witness for `free_then_allocate_returns_freed`: a heap with watermark `0x400000`, a
free-list of capacity 32 with no entry, and the page at `0x3ff000`. -/
theorem free_then_allocate_returns_freed_witness :
    (fresh_heap 0x400000 32 0).user_heap.free_pages_count
        < (fresh_heap 0x400000 32 0).user_heap.free_pages_address.length ∧
      0x3ff000 < (fresh_heap 0x400000 32 0).user_heap.heap_top ∧
      ∃ cur1, free_then_allocate 4096 unit_vm (fresh_heap 0x400000 32 0) 0x3ff000
        = Outcome.ret (0x3ff000, cur1) :=
  ⟨by decide, by decide,
    free_then_allocate_returns_freed 4096 unit_vm (fresh_heap 0x400000 32 0) 0x3ff000
      (by decide) (by decide)⟩

/-- A call of `sys_user_free_page` that returns leaves `heap_top` and `npages` as they
were. -/
theorem sys_user_free_page_frame {κ : Type} (PGSIZE : Nat) (V : vm_interface κ)
    (cur cur1 : process κ) (va v : Nat)
    (h : sys_user_free_page PGSIZE V cur va = Outcome.ret (v, cur1)) :
    cur1.user_heap.heap_top = cur.user_heap.heap_top ∧ cur1.npages = cur.npages := by
  unfold sys_user_free_page at h
  split at h
  · simp only [Outcome.ret.injEq, Prod.mk.injEq] at h
    obtain ⟨-, rfl⟩ := h
    exact ⟨rfl, rfl⟩
  · cases h

/-- A call of `sys_user_allocate_page` that is served from the free-list and returns leaves
`heap_top` and `npages` as they were. -/
theorem sys_user_allocate_page_reuse {κ : Type} (PGSIZE : Nat) (V : vm_interface κ)
    (cur cur1 : process κ) (v : Nat) (hcount : 0 < cur.user_heap.free_pages_count)
    (h : sys_user_allocate_page PGSIZE V cur = Outcome.ret (v, cur1)) :
    cur1.user_heap.heap_top = cur.user_heap.heap_top ∧ cur1.npages = cur.npages := by
  unfold sys_user_allocate_page at h
  simp only [hcount, if_true] at h
  split at h
  · cases h
  · split at h
    · simp only [Outcome.ret.injEq, Prod.mk.injEq] at h
      obtain ⟨-, rfl⟩ := h
      exact ⟨rfl, rfl⟩
    · cases h

/-- A call of `sys_user_allocate_page` that finds the free-list empty returns, moves
`heap_top` up by `PGSIZE` and adds one to `npages` (both modulo their widths). -/
theorem sys_user_allocate_page_fresh {κ : Type} (PGSIZE : Nat) (V : vm_interface κ)
    (cur cur1 : process κ) (v : Nat) (hcount : ¬ 0 < cur.user_heap.free_pages_count)
    (h : sys_user_allocate_page PGSIZE V cur = Outcome.ret (v, cur1)) :
    cur1.user_heap.heap_top = (cur.user_heap.heap_top + PGSIZE) % U64 ∧
      cur1.npages = (cur.npages + 1) % U32 := by
  unfold sys_user_allocate_page at h
  simp only [hcount, if_false] at h
  simp only [Outcome.ret.injEq, Prod.mk.injEq] at h
  obtain ⟨-, rfl⟩ := h
  exact ⟨rfl, rfl⟩

/-- An allocation that finds the free-list empty returns the watermark, moves it up by
`PGSIZE`, adds one to `npages` (both modulo their widths) and leaves the free-list as it
was. -/
theorem sys_user_allocate_page_of_empty {κ : Type} (PGSIZE : Nat) (V : vm_interface κ)
    (cur : process κ) (hempty : cur.user_heap.free_pages_count = 0) :
    ∃ c1, sys_user_allocate_page PGSIZE V cur = Outcome.ret (cur.user_heap.heap_top, c1) ∧
      c1.user_heap.heap_top = (cur.user_heap.heap_top + PGSIZE) % U64 ∧
      c1.npages = (cur.npages + 1) % U32 ∧
      c1.user_heap.free_pages_count = 0 ∧
      c1.user_heap.free_pages_address = cur.user_heap.free_pages_address := by
  have hno : ¬ 0 < cur.user_heap.free_pages_count := by omega
  unfold sys_user_allocate_page
  rw [if_neg hno]
  exact ⟨_, rfl, rfl, rfl, hempty, rfl⟩

/-- A release that finds room in the free-list returns 0, stores `va` at the index
`free_pages_count`, adds one to the count, and leaves `heap_top` and `npages` as they
were. -/
theorem sys_user_free_page_of_room {κ : Type} (PGSIZE : Nat) (V : vm_interface κ)
    (cur : process κ) (va : Nat)
    (hroom : cur.user_heap.free_pages_count < cur.user_heap.free_pages_address.length) :
    ∃ c1, sys_user_free_page PGSIZE V cur va = Outcome.ret (0, c1) ∧
      c1.user_heap.free_pages_count = cur.user_heap.free_pages_count + 1 ∧
      c1.user_heap.free_pages_address
        = cur.user_heap.free_pages_address.set cur.user_heap.free_pages_count va ∧
      c1.user_heap.heap_top = cur.user_heap.heap_top ∧ c1.npages = cur.npages := by
  unfold sys_user_free_page
  rw [if_pos hroom]
  exact ⟨_, rfl, rfl, rfl, rfl, rfl⟩

/-- An allocation that finds `va` on top of the free-list, below the watermark, returns
`va`, takes it off the free-list, and leaves `heap_top` and `npages` as they were. -/
theorem sys_user_allocate_page_of_entry {κ : Type} (PGSIZE : Nat) (V : vm_interface κ)
    (cur : process κ) (va : Nat) (hcount : 0 < cur.user_heap.free_pages_count)
    (htop : cur.user_heap.free_pages_address[cur.user_heap.free_pages_count - 1]? = some va)
    (hbelow : va < cur.user_heap.heap_top) :
    ∃ c1, sys_user_allocate_page PGSIZE V cur = Outcome.ret (va, c1) ∧
      c1.user_heap.free_pages_count = cur.user_heap.free_pages_count - 1 ∧
      c1.user_heap.heap_top = cur.user_heap.heap_top ∧ c1.npages = cur.npages := by
  unfold sys_user_allocate_page
  simp only [hcount, if_true, htop, hbelow]
  exact ⟨_, rfl, rfl, rfl, rfl⟩

/-- C12: if `heap_top` is a multiple of `PGSIZE` before a call and cannot wrap (it is a
`uint64`), then after every `sys_user_allocate_page` and every `sys_user_free_page` call
that returns, `heap_top` is still a multiple of `PGSIZE` and is greater than or equal to its
previous value; it grows by exactly `PGSIZE` when the call is an allocation that finds the
free-list empty (such an allocation does return), and is unchanged otherwise. -/
theorem heap_top_stays_aligned {κ : Type} (PGSIZE : Nat) (V : vm_interface κ)
    (cur : process κ)
    (halign : PGSIZE ∣ cur.user_heap.heap_top)
    (hw : cur.user_heap.heap_top + PGSIZE < U64) :
    (∀ (c : heap_call) (v : Nat) (cur1 : process κ),
      heap_step PGSIZE V c cur = Outcome.ret (v, cur1) →
      PGSIZE ∣ cur1.user_heap.heap_top ∧
      cur.user_heap.heap_top ≤ cur1.user_heap.heap_top ∧
      (c = heap_call.allocate ∧ cur.user_heap.free_pages_count = 0 →
        cur1.user_heap.heap_top = cur.user_heap.heap_top + PGSIZE) ∧
      (¬ (c = heap_call.allocate ∧ cur.user_heap.free_pages_count = 0) →
        cur1.user_heap.heap_top = cur.user_heap.heap_top)) ∧
    (cur.user_heap.free_pages_count = 0 →
      ∃ cur1, sys_user_allocate_page PGSIZE V cur
          = Outcome.ret (cur.user_heap.heap_top, cur1) ∧
        cur1.user_heap.heap_top = cur.user_heap.heap_top + PGSIZE) := by
  refine ⟨?_, ?_⟩
  · intro c v cur1 h
    have key : (cur1.user_heap.heap_top = cur.user_heap.heap_top ∧
          ¬ (c = heap_call.allocate ∧ cur.user_heap.free_pages_count = 0)) ∨
        (cur1.user_heap.heap_top = cur.user_heap.heap_top + PGSIZE ∧
          (c = heap_call.allocate ∧ cur.user_heap.free_pages_count = 0)) := by
      cases c with
      | free va =>
        left
        exact ⟨(sys_user_free_page_frame PGSIZE V cur cur1 va v h).1,
          fun hx => by cases hx.1⟩
      | allocate =>
        by_cases hcount : 0 < cur.user_heap.free_pages_count
        · left
          exact ⟨(sys_user_allocate_page_reuse PGSIZE V cur cur1 v hcount h).1,
            fun hx => by omega⟩
        · right
          have hf := (sys_user_allocate_page_fresh PGSIZE V cur cur1 v hcount h).1
          rw [Nat.mod_eq_of_lt hw] at hf
          exact ⟨hf, rfl, by omega⟩
    rcases key with ⟨ht, hno⟩ | ⟨ht, hyes⟩
    · exact ⟨by rw [ht]; exact halign, by omega, fun hx => absurd hx hno, fun _ => ht⟩
    · exact ⟨by rw [ht]; exact Dvd.dvd.add halign (dvd_refl _), by omega, fun _ => ht,
        fun hx => absurd hyes hx⟩
  · intro hempty
    obtain ⟨c1, h1, t1, -⟩ := sys_user_allocate_page_of_empty PGSIZE V cur hempty
    rw [Nat.mod_eq_of_lt hw] at t1
    exact ⟨c1, h1, t1⟩

/-- C13: starting from a heap with a page-aligned `heap_top` (two pages at least below
`2 ^ 64`), an empty free-list and segment page count 0, three consecutive
`sys_user_allocate_page` calls return `heap_top`, `heap_top + PGSIZE` and
`heap_top + 2 * PGSIZE`, which are strictly increasing (hence distinct) and page-aligned,
and leave `npages` equal to 3. -/
theorem three_allocations_in_a_row {κ : Type} (PGSIZE : Nat) (V : vm_interface κ)
    (cur : process κ) (hP : 0 < PGSIZE)
    (halign : PGSIZE ∣ cur.user_heap.heap_top)
    (hempty : cur.user_heap.free_pages_count = 0) (hn : cur.npages = 0)
    (hw : cur.user_heap.heap_top + 2 * PGSIZE < U64) :
    ∃ c1 c2 c3 : process κ,
      sys_user_allocate_page PGSIZE V cur = Outcome.ret (cur.user_heap.heap_top, c1) ∧
      sys_user_allocate_page PGSIZE V c1
        = Outcome.ret (cur.user_heap.heap_top + PGSIZE, c2) ∧
      sys_user_allocate_page PGSIZE V c2
        = Outcome.ret (cur.user_heap.heap_top + 2 * PGSIZE, c3) ∧
      c3.npages = 3 ∧
      cur.user_heap.heap_top < cur.user_heap.heap_top + PGSIZE ∧
      cur.user_heap.heap_top + PGSIZE < cur.user_heap.heap_top + 2 * PGSIZE ∧
      PGSIZE ∣ cur.user_heap.heap_top ∧ PGSIZE ∣ cur.user_heap.heap_top + PGSIZE ∧
      PGSIZE ∣ cur.user_heap.heap_top + 2 * PGSIZE := by
  obtain ⟨c1, h1, t1, n1, e1, -⟩ := sys_user_allocate_page_of_empty PGSIZE V cur hempty
  obtain ⟨c2, h2, t2, n2, e2, -⟩ := sys_user_allocate_page_of_empty PGSIZE V c1 e1
  obtain ⟨c3, h3, -, n3, -, -⟩ := sys_user_allocate_page_of_empty PGSIZE V c2 e2
  rw [Nat.mod_eq_of_lt (by omega)] at t1
  rw [t1, Nat.mod_eq_of_lt (by omega)] at t2
  rw [t1] at h2
  rw [t2] at h3
  have hnp : c3.npages = 3 := by
    rw [n3, n2, n1, hn]; decide
  have e3 : cur.user_heap.heap_top + PGSIZE + PGSIZE = cur.user_heap.heap_top + 2 * PGSIZE := by
    omega
  rw [e3] at h3
  exact ⟨c1, c2, c3, h1, h2, h3, hnp, by omega, by omega, halign,
    Dvd.dvd.add halign (dvd_refl _), Dvd.dvd.add halign (Dvd.intro_left 2 rfl)⟩

/-- C14: starting from a heap with an empty free-list (of capacity at least one) and
segment page count 0, whose `heap_top` cannot wrap, the sequence
`v1 = sys_user_allocate_page(); sys_user_free_page(v1); v2 = sys_user_allocate_page()`
runs to its end (the assertion `va < heap_top` holds), gives `v2 = v1 = heap_top`, and
leaves `npages` equal to 1. -/
theorem allocate_free_allocate_reuses_page {κ : Type} (PGSIZE : Nat) (V : vm_interface κ)
    (cur : process κ) (hP : 0 < PGSIZE)
    (hempty : cur.user_heap.free_pages_count = 0) (hn : cur.npages = 0)
    (hcap : 0 < cur.user_heap.free_pages_address.length)
    (hw : cur.user_heap.heap_top + PGSIZE < U64) :
    ∃ c1 c2 c3 : process κ,
      sys_user_allocate_page PGSIZE V cur = Outcome.ret (cur.user_heap.heap_top, c1) ∧
      sys_user_free_page PGSIZE V c1 cur.user_heap.heap_top = Outcome.ret (0, c2) ∧
      sys_user_allocate_page PGSIZE V c2 = Outcome.ret (cur.user_heap.heap_top, c3) ∧
      c3.npages = 1 := by
  obtain ⟨c1, h1, t1, n1, e1, l1⟩ := sys_user_allocate_page_of_empty PGSIZE V cur hempty
  rw [Nat.mod_eq_of_lt hw] at t1
  obtain ⟨c2, h2, e2, l2, t2, n2⟩ := sys_user_free_page_of_room PGSIZE V c1
    cur.user_heap.heap_top (by rw [e1, l1]; exact hcap)
  have htop : c2.user_heap.free_pages_address[c2.user_heap.free_pages_count - 1]?
      = some cur.user_heap.heap_top := by
    rw [e2, l2, e1]
    simp [l1, hcap]
  obtain ⟨c3, h3, -, -, n3⟩ := sys_user_allocate_page_of_entry PGSIZE V c2
    cur.user_heap.heap_top (by omega) htop (by omega)
  refine ⟨c1, c2, c3, h1, h2, h3, ?_⟩
  rw [n3, n2, n1, hn]; decide


/-- C11, the code at a failing input: from a heap with an empty free-list of capacity 32,
33 allocations followed by the release of 32 of the pages allocated return and leave
`free_pages_count` at 32, the capacity; the release of the 33rd page then performs the
store `free_pages_address[32] = va`, outside the array: `sys_user_free_page` has no
capacity check and takes no fatal path. -/
theorem free_on_full_list_is_unchecked :
    run_heap_calls 4096 unit_vm
      (List.replicate 33 heap_call.allocate
        ++ (List.range 32).map (fun k => heap_call.free (0x400000 + 4096 * k)))
      (fresh_heap 0x400000 32 0)
      = Outcome.ret
          { vm := (),
            user_heap :=
              { heap_top := 0x421000,
                free_pages_address := (List.range 32).map (fun k => 0x400000 + 4096 * k),
                free_pages_count := 32 },
            npages := 33 } ∧
    run_heap_calls 4096 unit_vm
      (List.replicate 33 heap_call.allocate
        ++ (List.range 33).map (fun k => heap_call.free (0x400000 + 4096 * k)))
      (fresh_heap 0x400000 32 0)
      = Outcome.undef := by
  decide

/-- Witness for `heap_top_stays_aligned`: an allocation on a heap with watermark
`0x400000` and an empty free-list, with pages of 4096 bytes. -/
theorem heap_top_stays_aligned_witness :
    4096 ∣ (fresh_heap 0x400000 32 0).user_heap.heap_top ∧
    (fresh_heap 0x400000 32 0).user_heap.heap_top + 4096 < U64 ∧
    heap_step 4096 unit_vm heap_call.allocate (fresh_heap 0x400000 32 0)
      = Outcome.ret (0x400000, fresh_heap 0x401000 32 1) ∧
    4096 ∣ (fresh_heap 0x401000 32 1).user_heap.heap_top ∧
    (fresh_heap 0x400000 32 0).user_heap.heap_top
      ≤ (fresh_heap 0x401000 32 1).user_heap.heap_top :=
  ⟨by decide, by decide, by decide,
    ((heap_top_stays_aligned 4096 unit_vm (fresh_heap 0x400000 32 0) (by decide)
      (by decide)).1 heap_call.allocate 0x400000 (fresh_heap 0x401000 32 1) (by decide)).1,
    ((heap_top_stays_aligned 4096 unit_vm (fresh_heap 0x400000 32 0) (by decide)
      (by decide)).1 heap_call.allocate 0x400000 (fresh_heap 0x401000 32 1) (by decide)).2.1⟩

/-- Witness for `three_allocations_in_a_row`: the heap with watermark `0x400000`, an empty
free-list and no page accounted, with pages of 4096 bytes. -/
theorem three_allocations_in_a_row_witness :
    0 < 4096 ∧ 4096 ∣ (fresh_heap 0x400000 32 0).user_heap.heap_top ∧
    (fresh_heap 0x400000 32 0).user_heap.free_pages_count = 0 ∧
    (fresh_heap 0x400000 32 0).npages = 0 ∧
    (fresh_heap 0x400000 32 0).user_heap.heap_top + 2 * 4096 < U64 ∧
    ∃ c1 c2 c3 : process Unit,
      sys_user_allocate_page 4096 unit_vm (fresh_heap 0x400000 32 0)
        = Outcome.ret ((fresh_heap 0x400000 32 0).user_heap.heap_top, c1) ∧
      sys_user_allocate_page 4096 unit_vm c1
        = Outcome.ret ((fresh_heap 0x400000 32 0).user_heap.heap_top + 4096, c2) ∧
      sys_user_allocate_page 4096 unit_vm c2
        = Outcome.ret ((fresh_heap 0x400000 32 0).user_heap.heap_top + 2 * 4096, c3) ∧
      c3.npages = 3 ∧
      (fresh_heap 0x400000 32 0).user_heap.heap_top
        < (fresh_heap 0x400000 32 0).user_heap.heap_top + 4096 ∧
      (fresh_heap 0x400000 32 0).user_heap.heap_top + 4096
        < (fresh_heap 0x400000 32 0).user_heap.heap_top + 2 * 4096 ∧
      4096 ∣ (fresh_heap 0x400000 32 0).user_heap.heap_top ∧
      4096 ∣ (fresh_heap 0x400000 32 0).user_heap.heap_top + 4096 ∧
      4096 ∣ (fresh_heap 0x400000 32 0).user_heap.heap_top + 2 * 4096 :=
  ⟨by decide, by decide, by decide, by decide, by decide,
    three_allocations_in_a_row 4096 unit_vm (fresh_heap 0x400000 32 0)
      (by decide) (by decide) (by decide) (by decide) (by decide)⟩

/-- Witness for `allocate_free_allocate_reuses_page`: the heap with watermark `0x400000`,
an empty free-list of capacity 32 and no page accounted, with pages of 4096 bytes. -/
theorem allocate_free_allocate_reuses_page_witness :
    0 < 4096 ∧ (fresh_heap 0x400000 32 0).user_heap.free_pages_count = 0 ∧
    (fresh_heap 0x400000 32 0).npages = 0 ∧
    0 < (fresh_heap 0x400000 32 0).user_heap.free_pages_address.length ∧
    (fresh_heap 0x400000 32 0).user_heap.heap_top + 4096 < U64 ∧
    ∃ c1 c2 c3 : process Unit,
      sys_user_allocate_page 4096 unit_vm (fresh_heap 0x400000 32 0)
        = Outcome.ret ((fresh_heap 0x400000 32 0).user_heap.heap_top, c1) ∧
      sys_user_free_page 4096 unit_vm c1 (fresh_heap 0x400000 32 0).user_heap.heap_top
        = Outcome.ret (0, c2) ∧
      sys_user_allocate_page 4096 unit_vm c2
        = Outcome.ret ((fresh_heap 0x400000 32 0).user_heap.heap_top, c3) ∧
      c3.npages = 1 :=
  ⟨by decide, by decide, by decide, by decide, by decide,
    allocate_free_allocate_reuses_page 4096 unit_vm (fresh_heap 0x400000 32 0)
      (by decide) (by decide) (by decide) (by decide) (by decide)⟩

/-- C16, counterexample: on a heap whose free-list of capacity 32 holds 32 entries,
`sys_user_free_page(0x420000)` does not store the address as a new top entry of
`free_pages_address` and return 0: the index 32 lies outside the array. -/
theorem free_page_on_full_list_has_no_entry :
    sys_user_free_page 4096 unit_vm
        { vm := (),
          user_heap :=
            { heap_top := 0x421000,
              free_pages_address := (List.range 32).map (fun k => 0x400000 + 4096 * k),
              free_pages_count := 32 },
          npages := 33 } 0x420000
      = Outcome.undef := by
  decide

/-- C16, amended: for every heap state whose free-list has room for one more entry and
every `va`, `sys_user_free_page(va)` returns 0, increments `free_pages_count` by one, stores
`va` as the new top entry of `free_pages_address`, leaves all the other entries (the
earlier ones among them) and the capacity unchanged, and leaves `heap_top` and
`mapped_info[HEAP_SEGMENT].npages` unchanged. -/
theorem sys_user_free_page_pushes {κ : Type} (PGSIZE : Nat) (V : vm_interface κ)
    (cur : process κ) (va : Nat)
    (hroom : cur.user_heap.free_pages_count < cur.user_heap.free_pages_address.length) :
    ∃ c1, sys_user_free_page PGSIZE V cur va = Outcome.ret (0, c1) ∧
      c1.user_heap.free_pages_count = cur.user_heap.free_pages_count + 1 ∧
      c1.user_heap.free_pages_address[cur.user_heap.free_pages_count]? = some va ∧
      (∀ k, k ≠ cur.user_heap.free_pages_count →
        c1.user_heap.free_pages_address[k]? = cur.user_heap.free_pages_address[k]?) ∧
      c1.user_heap.free_pages_address.length = cur.user_heap.free_pages_address.length ∧
      c1.user_heap.heap_top = cur.user_heap.heap_top ∧ c1.npages = cur.npages := by
  obtain ⟨c1, h1, h2, h3, h4, h5⟩ := sys_user_free_page_of_room PGSIZE V cur va hroom
  refine ⟨c1, h1, h2, ?_, ?_, ?_, h4, h5⟩
  · rw [h3]
    simp [hroom]
  · intro k hk
    rw [h3]
    simp [List.getElem?_set, Ne.symm hk]
  · rw [h3, List.length_set]

/-- Witness for `sys_user_free_page_pushes`: the release of the page `0x3ff000` on a heap
with an empty free-list of capacity 32. -/
theorem sys_user_free_page_pushes_witness :
    (fresh_heap 0x400000 32 0).user_heap.free_pages_count
      < (fresh_heap 0x400000 32 0).user_heap.free_pages_address.length ∧
    ∃ c1, sys_user_free_page 4096 unit_vm (fresh_heap 0x400000 32 0) 0x3ff000
        = Outcome.ret (0, c1) ∧
      c1.user_heap.free_pages_count = (fresh_heap 0x400000 32 0).user_heap.free_pages_count + 1 ∧
      c1.user_heap.free_pages_address[(fresh_heap 0x400000 32 0).user_heap.free_pages_count]?
        = some 0x3ff000 ∧
      (∀ k, k ≠ (fresh_heap 0x400000 32 0).user_heap.free_pages_count →
        c1.user_heap.free_pages_address[k]?
          = (fresh_heap 0x400000 32 0).user_heap.free_pages_address[k]?) ∧
      c1.user_heap.free_pages_address.length
        = (fresh_heap 0x400000 32 0).user_heap.free_pages_address.length ∧
      c1.user_heap.heap_top = (fresh_heap 0x400000 32 0).user_heap.heap_top ∧
      c1.npages = (fresh_heap 0x400000 32 0).npages :=
  ⟨by decide,
    sys_user_free_page_pushes 4096 unit_vm (fresh_heap 0x400000 32 0) 0x3ff000 (by decide)⟩

/-! ## Theorems: the chunked stream copier -/

theorem to_u64_lt (z : Int) : to_u64 z < U64 := by
  unfold to_u64
  have h1 : z % (U64 : Int) < (U64 : Int) := Int.emod_lt_of_pos z (by unfold U64; norm_num)
  have h0 : 0 ≤ z % (U64 : Int) := Int.emod_nonneg z (by unfold U64; norm_num)
  omega

theorem to_u64_of_nat (n : Nat) (h : n < U64) : to_u64 (n : Int) = n := by
  unfold to_u64
  rw [Int.emod_eq_of_lt (by omega) (by exact_mod_cast h)]
  simp

theorem sub64_eq (a b : Nat) (hb : b ≤ a) (ha : a < U64) : sub64 a b = a - b := by
  unfold sub64
  have hb' : b % U64 = b := Nat.mod_eq_of_lt (by omega)
  rw [hb']
  have : a + U64 - b = (a - b) + U64 := by omega
  rw [this, Nat.add_mod_right, Nat.mod_eq_of_lt (by omega)]

theorem ROUNDDOWN_le (a n : Nat) : ROUNDDOWN a n ≤ a := by
  unfold ROUNDDOWN
  exact Nat.div_mul_le_self a n

theorem sub_ROUNDDOWN (a n : Nat) : a - ROUNDDOWN a n = a % n := by
  unfold ROUNDDOWN
  have := Nat.div_add_mod a n
  have h2 : a / n * n = n * (a / n) := Nat.mul_comm _ _
  omega

/-- The page offset computed by the loop. -/
theorem page_offset_eq (PGSIZE bufva i : Nat) (hdiv : PGSIZE ∣ U64) :
    sub64 ((bufva + i) % U64) (ROUNDDOWN ((bufva + i) % U64) PGSIZE) = (bufva + i) % PGSIZE := by
  have hU : 0 < U64 := by unfold U64; norm_num
  rw [sub64_eq _ _ (ROUNDDOWN_le _ _) (Nat.mod_lt _ hU), sub_ROUNDDOWN,
    Nat.mod_mod_of_dvd _ hdiv]

theorem rw_loop_calls_in_page {σ : Type} (PGSIZE : Nat) (lookup_pa : Nat → Nat)
    (io : σ → Int → Nat → Nat → Int × σ) (fd : Int) (bufva count : Nat)
    (hP : 0 < PGSIZE) (hdiv : PGSIZE ∣ U64) (hlt : PGSIZE < U64) (hc : count < U64)
    (fuel : Nat) : ∀ (i : Int) (s : σ),
    ∀ c ∈ (rw_loop PGSIZE lookup_pa io fd bufva count fuel i s).calls,
      c.i < count ∧ c.off = (bufva + c.i) % PGSIZE ∧
      c.len = min (count - c.i) (PGSIZE - c.off) ∧ 1 ≤ c.len ∧ c.off + c.len ≤ PGSIZE := by
  induction fuel with
  | zero => intro i s c hmem; simp [rw_loop] at hmem
  | succ fuel ih =>
    intro i s c hmem
    unfold rw_loop at hmem
    by_cases hi : to_u64 i < count
    · simp only [hi, if_true] at hmem
      have hoff := page_offset_eq PGSIZE bufva (to_u64 i) hdiv
      have hofflt : (bufva + to_u64 i) % PGSIZE < PGSIZE := Nat.mod_lt _ hP
      rw [hoff] at hmem
      rw [sub64_eq count (to_u64 i) (by omega) hc, sub64_eq PGSIZE _ (by omega) hlt] at hmem
      have hlen1 : 1 ≤ (if count - to_u64 i < PGSIZE - (bufva + to_u64 i) % PGSIZE
          then count - to_u64 i else PGSIZE - (bufva + to_u64 i) % PGSIZE) := by
        split <;> omega
      have hlen2 : (bufva + to_u64 i) % PGSIZE
          + (if count - to_u64 i < PGSIZE - (bufva + to_u64 i) % PGSIZE
              then count - to_u64 i else PGSIZE - (bufva + to_u64 i) % PGSIZE) ≤ PGSIZE := by
        split <;> omega
      have hlen3 : (if count - to_u64 i < PGSIZE - (bufva + to_u64 i) % PGSIZE
          then count - to_u64 i else PGSIZE - (bufva + to_u64 i) % PGSIZE)
          = min (count - to_u64 i) (PGSIZE - (bufva + to_u64 i) % PGSIZE) := by
        split <;> omega
      generalize (if count - to_u64 i < PGSIZE - (bufva + to_u64 i) % PGSIZE
          then count - to_u64 i else PGSIZE - (bufva + to_u64 i) % PGSIZE) = L
        at hmem hlen1 hlen2 hlen3
      generalize io s fd _ L = res at hmem
      by_cases hr : to_u64 res.1 < L
      · rw [if_pos hr, List.mem_singleton] at hmem
        subst hmem
        exact ⟨hi, rfl, hlen3, hlen1, hlen2⟩
      · rw [if_neg hr, List.mem_cons] at hmem
        rcases hmem with rfl | hmem
        · exact ⟨hi, rfl, hlen3, hlen1, hlen2⟩
        · exact ih _ _ c hmem
    · simp only [hi, if_false] at hmem
      simp at hmem


theorem rw_loop_exit {σ : Type} (PGSIZE : Nat) (lookup_pa : Nat → Nat)
    (io : σ → Int → Nat → Nat → Int × σ) (fd : Int) (bufva count fuel : Nat) (i : Int) (s : σ)
    (hi : ¬ to_u64 i < count) :
    rw_loop PGSIZE lookup_pa io fd bufva count (fuel + 1) i s
      = { value := some (to_int64 count), calls := [], fs := s } := by
  rw [rw_loop, if_neg hi]

theorem rw_loop_succ {σ : Type} (PGSIZE : Nat) (lookup_pa : Nat → Nat)
    (io : σ → Int → Nat → Nat → Int × σ) (fd : Int) (bufva count fuel : Nat) (i : Int) (s : σ)
    (hP : 0 < PGSIZE) (hdiv : PGSIZE ∣ U64) (hlt : PGSIZE < U64) (hc : count < U64)
    (hi : to_u64 i < count) (off len ptr : Nat) (res : Int × σ)
    (hoff : off = (bufva + to_u64 i) % PGSIZE)
    (hlen : len = min (count - to_u64 i) (PGSIZE - off))
    (hptr : ptr = (lookup_pa ((bufva + to_u64 i) % U64) + off) % U64)
    (hres : res = io s fd ptr len) :
    rw_loop PGSIZE lookup_pa io fd bufva count (fuel + 1) i s
      = if to_u64 res.1 < len then
          { value := some (to_int32 ((to_u64 i + to_u64 res.1) % U64)),
            calls := [{ i := to_u64 i, off := off, ptr := ptr, len := len, r := to_u64 res.1 }],
            fs := res.2 }
        else
          { value := (rw_loop PGSIZE lookup_pa io fd bufva count fuel
                (to_int32 ((to_u64 i + to_u64 res.1) % U64)) res.2).value,
            calls := { i := to_u64 i, off := off, ptr := ptr, len := len, r := to_u64 res.1 }
              :: (rw_loop PGSIZE lookup_pa io fd bufva count fuel
                (to_int32 ((to_u64 i + to_u64 res.1) % U64)) res.2).calls,
            fs := (rw_loop PGSIZE lookup_pa io fd bufva count fuel
                (to_int32 ((to_u64 i + to_u64 res.1) % U64)) res.2).fs } := by
  have hofflt : (bufva + to_u64 i) % PGSIZE < PGSIZE := Nat.mod_lt _ hP
  have hlen3 : (if count - to_u64 i < PGSIZE - (bufva + to_u64 i) % PGSIZE
      then count - to_u64 i else PGSIZE - (bufva + to_u64 i) % PGSIZE)
      = min (count - to_u64 i) (PGSIZE - (bufva + to_u64 i) % PGSIZE) := by
    split <;> omega
  rw [rw_loop, if_pos hi]
  simp only []
  rw [page_offset_eq PGSIZE bufva (to_u64 i) hdiv,
    sub64_eq count (to_u64 i) (by omega) hc, sub64_eq PGSIZE _ (by omega) hlt, hlen3]
  subst hoff
  subst hlen
  subst hptr
  subst hres
  rfl

theorem to_int32_of_lt (n : Nat) (h : n < 2 ^ 31) : to_int32 n = (n : Int) := by
  unfold to_int32 U32
  have : n % 2 ^ 32 = n := Nat.mod_eq_of_lt (by omega)
  rw [this, if_pos h]

theorem int_overflow_run (lookup_pa : Nat → Nat) (fd : Int) (m : Nat) :
    ∀ (j e : Nat), j + m = 2 ^ 19 →
      (rw_loop 4096 lookup_pa full_io fd 0 (2 ^ 31 + 1) (m + 1 + e)
          (to_int32 (4096 * j)) ()).value = some (2 ^ 31 + 1) ∧
      (rw_loop 4096 lookup_pa full_io fd 0 (2 ^ 31 + 1) (m + 1 + e)
          (to_int32 (4096 * j)) ()).calls.length = m ∧
      bytes_transferred (rw_loop 4096 lookup_pa full_io fd 0 (2 ^ 31 + 1) (m + 1 + e)
          (to_int32 (4096 * j)) ()).calls = 4096 * m ∧
      (∀ c ∈ (rw_loop 4096 lookup_pa full_io fd 0 (2 ^ 31 + 1) (m + 1 + e)
          (to_int32 (4096 * j)) ()).calls, c.r = c.len) := by
  induction m with
  | zero =>
    intro j e hj
    have hj' : j = 2 ^ 19 := by omega
    subst hj'
    have hi : ¬ to_u64 (to_int32 (4096 * 2 ^ 19)) < 2 ^ 31 + 1 := by decide
    have e1 : 0 + 1 + e = e + 1 := by omega
    rw [e1, rw_loop_exit _ _ _ _ _ _ _ _ _ hi]
    refine ⟨by decide, rfl, rfl, by simp⟩
  | succ m ih =>
    intro j e hj
    have hjlt : 4096 * j < 2 ^ 31 := by omega
    have hi32 : to_int32 (4096 * j) = ((4096 * j : Nat) : Int) := to_int32_of_lt _ hjlt
    have hu : to_u64 (((4096 * j : Nat) : Int)) = 4096 * j :=
      to_u64_of_nat _ (by unfold U64; omega)
    have hi : to_u64 (to_int32 (4096 * j)) < 2 ^ 31 + 1 := by rw [hi32, hu]; omega
    have e1 : m + 1 + 1 + e = (m + 1 + e) + 1 := by omega
    have hoff : (0 : Nat) = (0 + to_u64 (to_int32 (4096 * j))) % 4096 := by
      rw [hi32, hu]; omega
    have hlen : (4096 : Nat) = min (2 ^ 31 + 1 - to_u64 (to_int32 (4096 * j))) (4096 - 0) := by
      rw [hi32, hu]; omega
    rw [e1, rw_loop_succ 4096 lookup_pa full_io fd 0 (2 ^ 31 + 1) (m + 1 + e)
      (to_int32 (4096 * j)) () (by norm_num) (by unfold U64; norm_num) (by unfold U64; norm_num)
      (by unfold U64; norm_num) hi 0 4096 _ _ hoff hlen rfl rfl]
    have hr : to_u64 (full_io () fd
        ((lookup_pa ((0 + to_u64 (to_int32 (4096 * j))) % U64) + 0) % U64) 4096).1 = 4096 :=
      to_u64_of_nat 4096 (by unfold U64; norm_num)
    rw [hr, if_neg (by omega)]
    have hnext : to_int32 ((to_u64 (to_int32 (4096 * j)) + 4096) % U64)
        = to_int32 (4096 * (j + 1)) := by
      have hmod : (4096 * j + 4096) % U64 = 4096 * (j + 1) := by
        rw [Nat.mod_eq_of_lt (by unfold U64; omega)]
        omega
      rw [hi32, hu, hmod]
    rw [hnext]
    obtain ⟨h1, h2, h3, h4⟩ := ih (j + 1) e (by omega)
    refine ⟨h1, ?_, ?_, ?_⟩
    · simp only [List.length_cons, h2]
    · unfold bytes_transferred at h3 ⊢
      simp only [List.map_cons, List.sum_cons, h3]
      omega
    · intro c hc
      rw [List.mem_cons] at hc
      rcases hc with rfl | hc
      · rfl
      · exact h4 c hc


theorem to_int32_pow31 : to_int32 (2 ^ 31) = -(2 ^ 31 : Int) := by decide

theorem rw_loop_bounded_run {σ : Type} (PGSIZE : Nat) (lookup_pa : Nat → Nat)
    (io : σ → Int → Nat → Nat → Int × σ) (fd : Int) (bufva count : Nat)
    (hP : 0 < PGSIZE) (hdiv : PGSIZE ∣ U64) (hlt : PGSIZE < U64) (hc : count ≤ 2 ^ 31)
    (hio : io_within_bounds io) (fuel : Nat) :
    ∀ (n : Nat) (s : σ), n ≤ count → count - n + 1 ≤ fuel →
      ∃ v : Nat,
        (rw_loop PGSIZE lookup_pa io fd bufva count fuel (to_int32 n) s).value
          = some (v : Int) ∧
        v = n + bytes_transferred
          (rw_loop PGSIZE lookup_pa io fd bufva count fuel (to_int32 n) s).calls ∧
        v ≤ count ∧
        (∀ c ∈ (rw_loop PGSIZE lookup_pa io fd bufva count fuel (to_int32 n) s).calls,
          c.r ≤ c.len) ∧
        (∀ c ∈ (rw_loop PGSIZE lookup_pa io fd bufva count fuel (to_int32 n) s).calls.dropLast,
          c.r = c.len) ∧
        ((∀ c ∈ (rw_loop PGSIZE lookup_pa io fd bufva count fuel (to_int32 n) s).calls,
          c.r = c.len) → v = count) ∧
        (rw_loop PGSIZE lookup_pa io fd bufva count fuel (to_int32 n) s).calls.length
          ≤ count - n := by
  have hcU : count < U64 := by unfold U64; omega
  induction fuel with
  | zero => intro n s _ hf; omega
  | succ fuel ih =>
    intro n s hn hf
    by_cases hlast : n = count
    · -- the loop condition fails
      have hi : ¬ to_u64 (to_int32 n) < count := by
        by_cases h31 : n < 2 ^ 31
        · rw [to_int32_of_lt n h31, to_u64_of_nat n (by unfold U64; omega)]; omega
        · have hn31 : n = 2 ^ 31 := by omega
          rw [hn31, to_int32_pow31]
          have : to_u64 (-(2 ^ 31 : Int)) = 2 ^ 64 - 2 ^ 31 := by decide
          rw [this]; omega
      rw [rw_loop_exit _ _ _ _ _ _ _ _ _ hi]
      refine ⟨count, ?_, ?_, le_refl _, ?_, ?_, ?_, ?_⟩
      · simp only [to_int64]
        have : count % U64 = count := Nat.mod_eq_of_lt hcU
        rw [this, if_pos (by omega)]
      · simp [bytes_transferred, hlast]
      · simp
      · simp
      · simp
      · simp
    · have hnlt : n < count := by omega
      have h31 : n < 2 ^ 31 := by omega
      have hi32 : to_int32 n = (n : Int) := to_int32_of_lt n h31
      have hu : to_u64 (n : Int) = n := to_u64_of_nat n (by unfold U64; omega)
      have hi : to_u64 (to_int32 n) < count := by rw [hi32, hu]; exact hnlt
      rw [rw_loop_succ PGSIZE lookup_pa io fd bufva count fuel (to_int32 n) s hP hdiv hlt hcU hi
        _ _ _ _ rfl rfl rfl rfl]
      rw [hi32, hu]
      have hofflt : (bufva + n) % PGSIZE < PGSIZE := Nat.mod_lt _ hP
      generalize hL : min (count - n) (PGSIZE - (bufva + n) % PGSIZE) = L
      have hL1 : 1 ≤ L := by omega
      have hL2 : n + L ≤ count := by omega
      generalize hres : io s fd ((lookup_pa ((bufva + n) % U64) + (bufva + n) % PGSIZE) % U64) L
        = res
      have hb := hio s fd ((lookup_pa ((bufva + n) % U64) + (bufva + n) % PGSIZE) % U64) L
      rw [hres] at hb
      obtain ⟨r, hr⟩ : ∃ r : Nat, res.1 = (r : Int) := ⟨res.1.toNat, by omega⟩
      have hrL : r ≤ L := by omega
      have hur : to_u64 res.1 = r := by
        rw [hr]; exact to_u64_of_nat r (by unfold U64; omega)
      rw [hur]
      have hmod : (n + r) % U64 = n + r := Nat.mod_eq_of_lt (by unfold U64; omega)
      rw [hmod]
      by_cases hshort : r < L
      · rw [if_pos hshort]
        refine ⟨n + r, ?_, ?_, by omega, ?_, ?_, ?_, ?_⟩
        · simp only
          rw [to_int32_of_lt (n + r) (by omega)]
        · simp [bytes_transferred]
        · intro c hcm
          simp only [List.mem_singleton] at hcm
          subst hcm
          exact hrL
        · simp
        · intro hall
          have := hall _ (List.mem_singleton.mpr rfl)
          simp only at this
          omega
        · simp only [List.length_singleton]; omega
      · rw [if_neg hshort]
        have hrL' : r = L := by omega
        subst hrL'
        obtain ⟨v, hv1, hv2, hv3, hv4, hv5, hv6, hv7⟩ := ih (n + r) res.2 hL2 (by omega)
        refine ⟨v, hv1, ?_, hv3, ?_, ?_, ?_, ?_⟩
        · simp only [bytes_transferred, List.map_cons, List.sum_cons] at hv2 ⊢
          omega
        · intro c hcm
          simp only [List.mem_cons] at hcm
          rcases hcm with rfl | hcm
          · exact le_refl _
          · exact hv4 c hcm
        · intro c hcm
          simp only at hcm
          cases hcalls : (rw_loop PGSIZE lookup_pa io fd bufva count fuel
              (to_int32 (n + r)) res.2).calls with
          | nil => rw [hcalls] at hcm; simp at hcm
          | cons c1 cs =>
            rw [hcalls, List.dropLast_cons₂, List.mem_cons] at hcm
            rcases hcm with rfl | hcm
            · rfl
            · rw [hcalls] at hv5; exact hv5 c hcm
        · intro hall
          apply hv6
          intro c hcm
          exact hall c (List.mem_cons_of_mem _ hcm)
        · simp only [List.length_cons]; omega


theorem pages_touched_last (P A m : Nat) (hP : 0 < P) (hm : 0 < m) (hfit : m ≤ P - A % P) :
    pages_touched P A m = 1 := by
  unfold pages_touched
  rw [if_neg (by omega)]
  have hA := Nat.div_add_mod A P
  have hlt : A % P < P := Nat.mod_lt _ hP
  have hmul : (A / P + 1) * P = P * (A / P) + P := by
    rw [Nat.add_mul, Nat.one_mul, Nat.mul_comm]
  have hmul2 : A / P * P = P * (A / P) := Nat.mul_comm _ _
  have : (A + m - 1) / P = A / P :=
    Nat.div_eq_of_lt_le (by omega) (by omega)
  omega

theorem pages_touched_step (P A m : Nat) (hP : 0 < P) (hover : P - A % P < m) :
    pages_touched P A m = 1 + pages_touched P (A + (P - A % P)) (m - (P - A % P)) := by
  unfold pages_touched
  have hA := Nat.div_add_mod A P
  have hlt : A % P < P := Nat.mod_lt _ hP
  rw [if_neg (by omega), if_neg (by omega)]
  have hmul : (A / P + 1) * P = P * (A / P) + P := by
    rw [Nat.add_mul, Nat.one_mul, Nat.mul_comm]
  have hnext : (A + (P - A % P)) / P = A / P + 1 :=
    Nat.div_eq_of_lt_le (by omega) (by rw [Nat.add_mul (A / P + 1) 1 P, Nat.one_mul]; omega)
  have hsame : A + (P - A % P) + (m - (P - A % P)) - 1 = A + m - 1 := by omega
  have hge : A / P + 1 ≤ (A + m - 1) / P := by
    rw [Nat.le_div_iff_mul_le hP]
    omega
  rw [hnext, hsame]
  omega

/-- With a collaborator that answers within bounds and a count of at most `2 ^ 31` bytes,
the number of calls issued is at most the number of pages touched by the bytes still to be
transferred, and equal to it when every call is transferred in full. -/
theorem rw_loop_calls_le_pages {σ : Type} (PGSIZE : Nat) (lookup_pa : Nat → Nat)
    (io : σ → Int → Nat → Nat → Int × σ) (fd : Int) (bufva count : Nat)
    (hP : 0 < PGSIZE) (hdiv : PGSIZE ∣ U64) (hlt : PGSIZE < U64) (hc : count ≤ 2 ^ 31)
    (hio : io_within_bounds io) (fuel : Nat) :
    ∀ (n : Nat) (s : σ), n ≤ count → count - n + 1 ≤ fuel →
      (rw_loop PGSIZE lookup_pa io fd bufva count fuel (to_int32 n) s).calls.length
        ≤ pages_touched PGSIZE (bufva + n) (count - n) ∧
      ((∀ c ∈ (rw_loop PGSIZE lookup_pa io fd bufva count fuel (to_int32 n) s).calls,
          c.r = c.len) →
        (rw_loop PGSIZE lookup_pa io fd bufva count fuel (to_int32 n) s).calls.length
          = pages_touched PGSIZE (bufva + n) (count - n)) := by
  have hcU : count < U64 := by unfold U64; omega
  induction fuel with
  | zero => intro n s _ hf; omega
  | succ fuel ih =>
    intro n s hn hf
    by_cases hlast : n = count
    · have hi : ¬ to_u64 (to_int32 n) < count := by
        by_cases h31 : n < 2 ^ 31
        · rw [to_int32_of_lt n h31, to_u64_of_nat n (by unfold U64; omega)]; omega
        · have hn31 : n = 2 ^ 31 := by omega
          rw [hn31, to_int32_pow31]
          have : to_u64 (-(2 ^ 31 : Int)) = 2 ^ 64 - 2 ^ 31 := by decide
          rw [this]; omega
      rw [rw_loop_exit _ _ _ _ _ _ _ _ _ hi]
      simp [pages_touched, hlast]
    · have hnlt : n < count := by omega
      have h31 : n < 2 ^ 31 := by omega
      have hi32 : to_int32 n = (n : Int) := to_int32_of_lt n h31
      have hu : to_u64 (n : Int) = n := to_u64_of_nat n (by unfold U64; omega)
      have hi : to_u64 (to_int32 n) < count := by rw [hi32, hu]; exact hnlt
      rw [rw_loop_succ PGSIZE lookup_pa io fd bufva count fuel (to_int32 n) s hP hdiv hlt hcU hi
        _ _ _ _ rfl rfl rfl rfl]
      rw [hi32, hu]
      have hofflt : (bufva + n) % PGSIZE < PGSIZE := Nat.mod_lt _ hP
      generalize hL : min (count - n) (PGSIZE - (bufva + n) % PGSIZE) = L
      have hL1 : 1 ≤ L := by omega
      have hL2 : n + L ≤ count := by omega
      generalize hres : io s fd ((lookup_pa ((bufva + n) % U64) + (bufva + n) % PGSIZE) % U64) L
        = res
      have hb := hio s fd ((lookup_pa ((bufva + n) % U64) + (bufva + n) % PGSIZE) % U64) L
      rw [hres] at hb
      obtain ⟨r, hr⟩ : ∃ r : Nat, res.1 = (r : Int) := ⟨res.1.toNat, by omega⟩
      have hrL : r ≤ L := by omega
      have hur : to_u64 res.1 = r := by
        rw [hr]; exact to_u64_of_nat r (by unfold U64; omega)
      rw [hur]
      have hmod : (n + r) % U64 = n + r := Nat.mod_eq_of_lt (by unfold U64; omega)
      rw [hmod]
      have hpos : 1 ≤ pages_touched PGSIZE (bufva + n) (count - n) := by
        unfold pages_touched
        rw [if_neg (by omega)]
        omega
      by_cases hshort : r < L
      · rw [if_pos hshort]
        refine ⟨by simpa using hpos, ?_⟩
        intro hall
        have := hall _ (List.mem_singleton.mpr rfl)
        simp only at this
        omega
      · rw [if_neg hshort]
        have hrL' : r = L := by omega
        subst hrL'
        obtain ⟨h1, h2⟩ := ih (n + r) res.2 hL2 (by omega)
        by_cases hfit : count - n ≤ PGSIZE - (bufva + n) % PGSIZE
        · -- the last chunk
          have hr' : r = count - n := by omega
          have hend : n + r = count := by omega
          have hk := pages_touched_last PGSIZE (bufva + n) (count - n) hP (by omega) hfit
          rw [hend] at h1 h2 ⊢
          have hz : pages_touched PGSIZE (bufva + count) (count - count) = 0 := by
            simp [pages_touched]
          rw [hz] at h1 h2
          simp only [List.length_cons]
          rw [hk]
          refine ⟨by omega, fun _ => by omega⟩
        · have hr' : r = PGSIZE - (bufva + n) % PGSIZE := by omega
          have hk := pages_touched_step PGSIZE (bufva + n) (count - n) hP (by omega)
          rw [← hr'] at hk
          have e1 : bufva + n + r = bufva + (n + r) := by omega
          have e2 : count - n - r = count - (n + r) := by omega
          rw [e1, e2] at hk
          simp only [List.length_cons]
          rw [hk]
          refine ⟨by omega, ?_⟩
          intro hall
          have := h2 (fun c hcm => hall c (List.mem_cons_of_mem _ hcm))
          omega

/-- C3: for every buffer address `bufva` and every count (a `uint64`), and for a page size
that is positive, below `2 ^ 64` and divides `2 ^ 64`, each `do_read` / `do_write` call
issued by `sys_user_read` / `sys_user_write` at offset `i` (however long the loop has run)
has `i < count`, `off = (bufva + i) mod PGSIZE`, `len = min (count - i) (PGSIZE - off)`,
`1 ≤ len` and `off + len ≤ PGSIZE`: no chunk crosses a page boundary. -/
theorem read_write_chunks_stay_in_page {σ δ : Type} (PGSIZE : Nat) (lookup_pa : Nat → Nat)
    (F : file_interface σ δ) (fuel : Nat) (fd : Int) (bufva count : Nat) (s : σ)
    (hP : 0 < PGSIZE) (hdiv : PGSIZE ∣ U64) (hlt : PGSIZE < U64) (hc : count < U64) :
    (∀ c ∈ (sys_user_read PGSIZE lookup_pa F fuel fd bufva count s).calls,
      c.i < count ∧ c.off = (bufva + c.i) % PGSIZE ∧
      c.len = min (count - c.i) (PGSIZE - c.off) ∧ 1 ≤ c.len ∧ c.off + c.len ≤ PGSIZE) ∧
    (∀ c ∈ (sys_user_write PGSIZE lookup_pa F fuel fd bufva count s).calls,
      c.i < count ∧ c.off = (bufva + c.i) % PGSIZE ∧
      c.len = min (count - c.i) (PGSIZE - c.off) ∧ 1 ≤ c.len ∧ c.off + c.len ≤ PGSIZE) :=
  ⟨rw_loop_calls_in_page PGSIZE lookup_pa F.do_read fd bufva count hP hdiv hlt hc fuel 0 s,
    rw_loop_calls_in_page PGSIZE lookup_pa F.do_write fd bufva count hP hdiv hlt hc fuel 0 s⟩

/-- Witness for `read_write_chunks_stay_in_page`: 5000 bytes at a buffer that starts 4000
bytes into a page, with pages of 4096 bytes; the run issues two calls, of 96 and of 4096
bytes. -/
theorem read_write_chunks_stay_in_page_witness :
    0 < 4096 ∧ 4096 ∣ U64 ∧ 4096 < U64 ∧ 5000 < U64 ∧
    (sys_user_read 4096 page_map bounded_files 3 3 4000 5000 3000).calls
      = [{ i := 0, off := 4000, ptr := 4000, len := 96, r := 96 },
         { i := 96, off := 0, ptr := 4096, len := 4096, r := 2904 }] ∧
    ((∀ c ∈ (sys_user_read 4096 page_map bounded_files 3 3 4000 5000 3000).calls,
      c.i < 5000 ∧ c.off = (4000 + c.i) % 4096 ∧
      c.len = min (5000 - c.i) (4096 - c.off) ∧ 1 ≤ c.len ∧ c.off + c.len ≤ 4096) ∧
    (∀ c ∈ (sys_user_write 4096 page_map bounded_files 3 3 4000 5000 3000).calls,
      c.i < 5000 ∧ c.off = (4000 + c.i) % 4096 ∧
      c.len = min (5000 - c.i) (4096 - c.off) ∧ 1 ≤ c.len ∧ c.off + c.len ≤ 4096)) :=
  ⟨by decide, by decide, by decide, by decide, by decide,
    read_write_chunks_stay_in_page 4096 page_map bounded_files 3 3 4000 5000 3000
      (by decide) (by decide) (by decide) (by decide)⟩

/-- C4, the code at a failing input: asked for `2 ^ 31 + 1` bytes at buffer address `0`,
with pages of 4096 bytes and a collaborator that transfers every chunk in full,
`sys_user_read` and `sys_user_write` return `2 ^ 31 + 1` (however much fuel is left over),
although the calls they issued, all of them full, transferred `2 ^ 31` bytes in all: the
`int i` wraps to a negative value once `2 ^ 31` bytes are transferred, the loop condition
fails and the function reports `count`. -/
theorem read_write_report_more_than_transferred (e : Nat) :
    (sys_user_read 4096 page_map full_files (2 ^ 19 + 1 + e) 3 0
        (2 ^ 31 + 1) ()).value = some (2 ^ 31 + 1) ∧
    bytes_transferred (sys_user_read 4096 page_map full_files (2 ^ 19 + 1 + e) 3 0
        (2 ^ 31 + 1) ()).calls = 2 ^ 31 ∧
    (∀ c ∈ (sys_user_read 4096 page_map full_files (2 ^ 19 + 1 + e) 3 0
        (2 ^ 31 + 1) ()).calls, c.r = c.len) ∧
    (sys_user_write 4096 page_map full_files (2 ^ 19 + 1 + e) 3 0
        (2 ^ 31 + 1) ()).value = some (2 ^ 31 + 1) ∧
    bytes_transferred (sys_user_write 4096 page_map full_files (2 ^ 19 + 1 + e) 3 0
        (2 ^ 31 + 1) ()).calls = 2 ^ 31 ∧
    (∀ c ∈ (sys_user_write 4096 page_map full_files (2 ^ 19 + 1 + e) 3 0
        (2 ^ 31 + 1) ()).calls, c.r = c.len) := by
  have h := int_overflow_run page_map 3 (2 ^ 19) 0 e (by norm_num)
  have h0 : to_int32 (4096 * 0) = 0 := by decide
  rw [h0] at h
  obtain ⟨h1, -, h3, h4⟩ := h
  have h3' : bytes_transferred (rw_loop 4096 page_map full_io 3 0 (2 ^ 31 + 1)
      (2 ^ 19 + 1 + e) 0 ()).calls = 2 ^ 31 := by rw [h3]; norm_num
  exact ⟨h1, h3', h4, h1, h3', h4⟩

/-- C5, the code at a failing input: asked for one byte at buffer address `0`, with a
collaborator whose `do_read` / `do_write` fails with the error code `-1`, `sys_user_read`
and `sys_user_write` return `1` (the whole count, as if the byte had been transferred), not
`-1`: the error is stored in the `uint64 r`, where it is not below `len`, and added to the
`int i`, which ends the loop. -/
theorem read_write_swallow_error_code :
    (sys_user_read 4096 page_map (failing_files (-1)) 2 3 0 1 ()).value = some 1 ∧
    (sys_user_write 4096 page_map (failing_files (-1)) 2 3 0 1 ()).value = some 1 ∧
    (sys_user_read 4096 page_map (failing_files (-1)) 2 3 0 1 ()).calls
      = [{ i := 0, off := 0, ptr := 0, len := 1, r := 2 ^ 64 - 1 }] := by
  decide

/-- C10, the code at a failing input: asked for `2 ^ 31 + 1` bytes at buffer address `0`,
with pages of 4096 bytes, the byte range touches `2 ^ 19 + 1` pages; with a collaborator
that transfers every chunk in full, `sys_user_read` and `sys_user_write` return after
`2 ^ 19` calls, one fewer than the pages touched. -/
theorem read_write_skip_last_page (e : Nat) :
    pages_touched 4096 0 (2 ^ 31 + 1) = 2 ^ 19 + 1 ∧
    (sys_user_read 4096 page_map full_files (2 ^ 19 + 1 + e) 3 0
        (2 ^ 31 + 1) ()).calls.length = 2 ^ 19 ∧
    (∀ c ∈ (sys_user_read 4096 page_map full_files (2 ^ 19 + 1 + e) 3 0
        (2 ^ 31 + 1) ()).calls, c.r = c.len) ∧
    (sys_user_read 4096 page_map full_files (2 ^ 19 + 1 + e) 3 0
        (2 ^ 31 + 1) ()).value = some (2 ^ 31 + 1) ∧
    (sys_user_write 4096 page_map full_files (2 ^ 19 + 1 + e) 3 0
        (2 ^ 31 + 1) ()).calls.length = 2 ^ 19 ∧
    (∀ c ∈ (sys_user_write 4096 page_map full_files (2 ^ 19 + 1 + e) 3 0
        (2 ^ 31 + 1) ()).calls, c.r = c.len) := by
  have h := int_overflow_run page_map 3 (2 ^ 19) 0 e (by norm_num)
  have h0 : to_int32 (4096 * 0) = 0 := by decide
  rw [h0] at h
  obtain ⟨h1, h2, -, h4⟩ := h
  exact ⟨by decide, h2, h4, h1, h2, h4⟩

theorem to_int32_zero : to_int32 0 = 0 := by decide

/-- Reading from a file that has fewer bytes left than asked for: with `total` bytes left
in all, `total < count ≤ 2 ^ 31`, the loop entered at offset `n` with `total - n` bytes left
returns `total`. -/
theorem rw_loop_bounded_io (PGSIZE : Nat) (lookup_pa : Nat → Nat) (fd : Int)
    (bufva count total : Nat)
    (hP : 0 < PGSIZE) (hdiv : PGSIZE ∣ U64) (hlt : PGSIZE < U64)
    (hc : count ≤ 2 ^ 31) (ht : total < count) (fuel : Nat) :
    ∀ (n left : Nat), n + left = total → count - n + 1 ≤ fuel →
      (rw_loop PGSIZE lookup_pa bounded_io fd bufva count fuel (to_int32 n) left).value
        = some (total : Int) ∧
      (rw_loop PGSIZE lookup_pa bounded_io fd bufva count fuel (to_int32 n) left).fs = 0 := by
  have hcU : count < U64 := by unfold U64; omega
  induction fuel with
  | zero => intro n left _ hf; omega
  | succ fuel ih =>
    intro n left hsum hf
    have hnlt : n < count := by omega
    have h31 : n < 2 ^ 31 := by omega
    have hi32 : to_int32 n = (n : Int) := to_int32_of_lt n h31
    have hu : to_u64 (n : Int) = n := to_u64_of_nat n (by unfold U64; omega)
    have hi : to_u64 (to_int32 n) < count := by rw [hi32, hu]; exact hnlt
    rw [rw_loop_succ PGSIZE lookup_pa bounded_io fd bufva count fuel (to_int32 n) left hP hdiv
      hlt hcU hi _ _ _ _ rfl rfl rfl rfl]
    rw [hi32, hu]
    have hofflt : (bufva + n) % PGSIZE < PGSIZE := Nat.mod_lt _ hP
    generalize hL : min (count - n) (PGSIZE - (bufva + n) % PGSIZE) = L
    have hL1 : 1 ≤ L := by omega
    have hL2 : n + L ≤ count := by omega
    have hres : ∀ ptr, bounded_io left fd ptr L
        = (((min L left : Nat) : Int), left - min L left) := fun _ => rfl
    rw [hres]
    simp only
    have hur : to_u64 ((min L left : Nat) : Int) = min L left :=
      to_u64_of_nat _ (by unfold U64; omega)
    rw [hur]
    have hmod : (n + min L left) % U64 = n + min L left :=
      Nat.mod_eq_of_lt (by unfold U64; omega)
    rw [hmod]
    by_cases hshort : min L left < L
    · rw [if_pos hshort]
      have hmin : min L left = left := by omega
      rw [hmin]
      simp only
      rw [to_int32_of_lt (n + left) (by omega), hsum]
      exact ⟨rfl, by omega⟩
    · rw [if_neg hshort]
      have hmin : min L left = L := by omega
      rw [hmin]
      exact ih (n + L) (left - L) (by omega) (by omega)

/-- C15: for every buffer address `bufva` (and every page size that is positive, below
`2 ^ 64` and divides `2 ^ 64`), `sys_user_read(fd, bufva, 5000)` against a file that has
3000 readable bytes left (each `do_read` transfers `min len left` bytes) returns 3000, as
soon as the fuel allows 5001 evaluations of the loop condition. -/
theorem read_5000_of_3000_returns_3000 (PGSIZE : Nat) (lookup_pa : Nat → Nat) (fd : Int)
    (bufva fuel : Nat)
    (hP : 0 < PGSIZE) (hdiv : PGSIZE ∣ U64) (hlt : PGSIZE < U64) (hfuel : 5001 ≤ fuel) :
    (sys_user_read PGSIZE lookup_pa bounded_files fuel fd bufva 5000 3000).value
      = some 3000 := by
  have h := (rw_loop_bounded_io PGSIZE lookup_pa fd bufva 5000 3000 hP hdiv hlt (by norm_num)
    (by norm_num) fuel 0 3000 (by norm_num) (by omega)).1
  rw [to_int32_zero] at h
  exact h

/-- Witness for `read_5000_of_3000_returns_3000`: pages of 4096 bytes and a buffer that
starts 4000 bytes into a page. -/
theorem read_5000_of_3000_returns_3000_witness :
    0 < 4096 ∧ 4096 ∣ U64 ∧ 4096 < U64 ∧ 5001 ≤ 5001 ∧
    (sys_user_read 4096 page_map bounded_files 5001 3 4000 5000 3000).value = some 3000 :=
  ⟨by decide, by decide, by decide, by decide,
    read_5000_of_3000_returns_3000 4096 page_map 3 4000 5001 (by decide) (by decide)
      (by decide) (by decide)⟩

/-- C18: for every `bufva`, every count below `2 ^ 31` and every file collaborator that
answers each chunk with `0 ≤ r ≤ len`, the loop of `sys_user_read` / `sys_user_write`
terminates: with fuel for `count + 1` evaluations of the loop condition the function
returns a value, after at most `count` calls; every call has `1 ≤ len` and `r ≤ len`, and
every call but the last transferred `len` bytes in full (the offset advanced by
`len ≥ 1`). -/
theorem read_write_loop_terminates {σ δ : Type} (PGSIZE : Nat) (lookup_pa : Nat → Nat)
    (F : file_interface σ δ) (fuel : Nat) (fd : Int) (bufva count : Nat) (s : σ)
    (hP : 0 < PGSIZE) (hdiv : PGSIZE ∣ U64) (hlt : PGSIZE < U64) (hc : count < 2 ^ 31)
    (hrd : io_within_bounds F.do_read) (hwr : io_within_bounds F.do_write)
    (hfuel : count + 1 ≤ fuel) :
    ((∃ v : Int, (sys_user_read PGSIZE lookup_pa F fuel fd bufva count s).value = some v) ∧
      (sys_user_read PGSIZE lookup_pa F fuel fd bufva count s).calls.length ≤ count ∧
      (∀ c ∈ (sys_user_read PGSIZE lookup_pa F fuel fd bufva count s).calls,
        1 ≤ c.len ∧ c.r ≤ c.len) ∧
      (∀ c ∈ (sys_user_read PGSIZE lookup_pa F fuel fd bufva count s).calls.dropLast,
        c.r = c.len)) ∧
    ((∃ v : Int, (sys_user_write PGSIZE lookup_pa F fuel fd bufva count s).value = some v) ∧
      (sys_user_write PGSIZE lookup_pa F fuel fd bufva count s).calls.length ≤ count ∧
      (∀ c ∈ (sys_user_write PGSIZE lookup_pa F fuel fd bufva count s).calls,
        1 ≤ c.len ∧ c.r ≤ c.len) ∧
      (∀ c ∈ (sys_user_write PGSIZE lookup_pa F fuel fd bufva count s).calls.dropLast,
        c.r = c.len)) := by
  have hcU : count < U64 := by unfold U64; omega
  have key : ∀ io : σ → Int → Nat → Nat → Int × σ, io_within_bounds io →
      (∃ v : Int, (rw_loop PGSIZE lookup_pa io fd bufva count fuel 0 s).value = some v) ∧
      (rw_loop PGSIZE lookup_pa io fd bufva count fuel 0 s).calls.length ≤ count ∧
      (∀ c ∈ (rw_loop PGSIZE lookup_pa io fd bufva count fuel 0 s).calls,
        1 ≤ c.len ∧ c.r ≤ c.len) ∧
      (∀ c ∈ (rw_loop PGSIZE lookup_pa io fd bufva count fuel 0 s).calls.dropLast,
        c.r = c.len) := by
    intro io hio
    have h := rw_loop_bounded_run PGSIZE lookup_pa io fd bufva count hP hdiv hlt (by omega) hio
      fuel 0 s (by omega) (by omega)
    rw [to_int32_zero] at h
    obtain ⟨v, h1, -, -, h4, h5, -, h7⟩ := h
    refine ⟨⟨(v : Int), h1⟩, by omega, ?_, h5⟩
    intro c hcm
    have hpage := rw_loop_calls_in_page PGSIZE lookup_pa io fd bufva count hP hdiv hlt hcU
      fuel 0 s c hcm
    exact ⟨hpage.2.2.2.1, h4 c hcm⟩
  exact ⟨key F.do_read hrd, key F.do_write hwr⟩

/-- Witness for `read_write_loop_terminates`: 5000 bytes asked from a file with 3000 bytes
left, with pages of 4096 bytes. -/
theorem read_write_loop_terminates_witness :
    0 < 4096 ∧ 4096 ∣ U64 ∧ 4096 < U64 ∧ 5000 < 2 ^ 31 ∧
    io_within_bounds bounded_files.do_read ∧ io_within_bounds bounded_files.do_write ∧
    5000 + 1 ≤ 5001 ∧
    (sys_user_read 4096 page_map bounded_files 5001 3 4000 5000 3000).value = some 3000 ∧
    (sys_user_read 4096 page_map bounded_files 5001 3 4000 5000 3000).calls.length ≤ 5000 :=
  ⟨by decide, by decide, by decide, by decide,
    fun s fd ptr len => ⟨by simp [bounded_files, rw_interface, bounded_io],
      by simp [bounded_files, rw_interface, bounded_io]⟩,
    fun s fd ptr len => ⟨by simp [bounded_files, rw_interface, bounded_io],
      by simp [bounded_files, rw_interface, bounded_io]⟩,
    by decide, by decide,
    (read_write_loop_terminates 4096 page_map bounded_files 5001 3 4000 5000 3000
      (by decide) (by decide) (by decide) (by decide)
      (fun s fd ptr len => ⟨by simp [bounded_files, rw_interface, bounded_io],
        by simp [bounded_files, rw_interface, bounded_io]⟩)
      (fun s fd ptr len => ⟨by simp [bounded_files, rw_interface, bounded_io],
        by simp [bounded_files, rw_interface, bounded_io]⟩)
      (by decide)).1.2.1⟩

/-! ## Theorems: the path resolver -/

theorem Outcome.bind_eq_ret {α β : Type} (x : Outcome α) (f : α → Outcome β) (b : β) :
    x.bind f = Outcome.ret b ↔ ∃ a, x = Outcome.ret a ∧ f a = Outcome.ret b := by
  cases x with
  | ret a => simp [Outcome.bind]
  | fatal => simp [Outcome.bind]
  | undef => simp [Outcome.bind]

theorem strcat_eq_ret (cap : Nat) (dst src s : List Char) :
    strcat cap dst src = Outcome.ret s ↔ dst.length + src.length + 1 ≤ cap ∧ s = dst ++ src := by
  unfold strcat
  split
  · simp [*, eq_comm]
  · simp [*]

theorem strcpy_eq_ret (cap : Nat) (src s : List Char) :
    strcpy cap src = Outcome.ret s ↔ src.length + 1 ≤ cap ∧ s = src := by
  unfold strcpy
  split
  · simp [*, eq_comm]
  · simp [*]

theorem strcat_ptr_eq_ret (cap : Nat) (dst p s : List Char) :
    strcat_ptr cap dst p = Outcome.ret s ↔
      ∃ t, c_str p = some t ∧ dst.length + t.length + 1 ≤ cap ∧ s = dst ++ t := by
  unfold strcat_ptr
  cases h : c_str p with
  | none => simp
  | some t => simp [strcat_eq_ret]

theorem absolute_walk_eq_ret (cap : Nat) (d : dentry) :
    ∀ (acc s : List Char), absolute_walk cap d acc = Outcome.ret s →
      s = acc ++ d.walk_string := by
  induction d with
  | root name =>
    intro acc s h
    simp only [absolute_walk, strcat_eq_ret] at h
    simp [dentry.walk_string, h.2]
  | child name parent ih =>
    intro acc s h
    simp only [absolute_walk, Outcome.bind_eq_ret, strcat_eq_ret] at h
    obtain ⟨a1, ⟨-, rfl⟩, a2, ⟨-, rfl⟩, h3⟩ := h
    rw [ih _ _ h3]
    simp [dentry.walk_string]

theorem rcwd_loop_eq_ret (cap : Nat) (d : dentry) :
    ∀ (acc s : List Char), rcwd_loop cap d acc = Outcome.ret s →
      s = acc ++ d.leaf_to_root_path := by
  induction d with
  | root name =>
    intro acc s h
    simp only [rcwd_loop, Outcome.ret.injEq] at h
    simp [dentry.leaf_to_root_path, h]
  | child name parent ih =>
    intro acc s h
    simp only [rcwd_loop, Outcome.bind_eq_ret, strcat_eq_ret] at h
    obtain ⟨a1, ⟨-, rfl⟩, a2, ⟨-, rfl⟩, h3⟩ := h
    rw [ih _ _ h3]
    simp [dentry.leaf_to_root_path]

theorem absolute_from_eq_ret (M cap : Nat) (dir : Option dentry) (rel s : List Char)
    (h : absolute_from M cap dir rel = Outcome.ret s) :
    ∃ t, s = [ '/' ] ++ walk_string_of dir ++ t := by
  unfold absolute_from at h
  split at h
  · simp only [Outcome.bind_eq_ret, strcpy_eq_ret] at h
    obtain ⟨a0, ⟨-, rfl⟩, a1, hloop, hrest⟩ := h
    have ha1 : a1 = [ '/' ] ++ walk_string_of dir := by
      cases dir with
      | none =>
        simp only [absolute_loop, Outcome.ret.injEq] at hloop
        simp [walk_string_of, hloop]
      | some d =>
        simp only [absolute_loop] at hloop
        rw [absolute_walk_eq_ret cap d _ _ hloop]
        rfl
    subst ha1
    have key : ∀ p, strcat_ptr cap ([ '/' ] ++ walk_string_of dir) p = Outcome.ret s →
        ∃ t, s = [ '/' ] ++ walk_string_of dir ++ t := by
      intro p hp
      rw [strcat_ptr_eq_ret] at hp
      obtain ⟨t, -, -, rfl⟩ := hp
      exact ⟨t, rfl⟩
    split at hrest
    · cases hrest
    · split at hrest
      · split at hrest
        · cases hrest
        · split at hrest
          · exact key _ hrest
          · exact key _ hrest
      · exact key _ hrest
  · cases h

theorem leaf_to_root_path_length_le (d : dentry) :
    d.leaf_to_root_path.length ≤ d.walk_string.length := by
  induction d with
  | root name => simp [dentry.leaf_to_root_path]
  | child name parent ih =>
    simp only [dentry.leaf_to_root_path, dentry.walk_string, List.length_append,
      List.length_singleton]
    omega

theorem relative_path_dot (M cap : Nat) (cwd : Option dentry) (rel : List Char) (c1 : Char)
    (h0 : rel[0]? = some '.') (h1 : rel[1]? = some c1) (hc : c1 ≠ '.') :
    sys_user_relative_path_to_absolute M cap cwd rel = absolute_from M cap cwd rel := by
  simp [sys_user_relative_path_to_absolute, h0, h1, hc]

theorem relative_path_dotdot (M cap : Nat) (d : dentry) (rel : List Char)
    (h0 : rel[0]? = some '.') (h1 : rel[1]? = some '.') :
    sys_user_relative_path_to_absolute M cap (some d) rel
      = absolute_from M cap d.parent (rel.drop 2) := by
  simp [sys_user_relative_path_to_absolute, h0, h1]

/-- From a working directory other than the root, the string that
`sys_user_relative_path_to_absolute` writes for `"."` is longer than the string that
`sys_user_rcwd` writes, whenever both return. -/
theorem dot_resolution_longer_than_rcwd (M cap DEV DEN ucap : Nat) (name : List Char)
    (parent : dentry) (rel s1 s2 : List Char)
    (h0 : rel[0]? = some '.') (h1 : rel[1]? = some NUL)
    (ha : sys_user_relative_path_to_absolute M cap (some (dentry.child name parent)) rel
      = Outcome.ret s1)
    (hr : sys_user_rcwd DEV DEN ucap (some (dentry.child name parent)) = Outcome.ret s2) :
    s2.length < s1.length := by
  rw [relative_path_dot M cap _ rel NUL h0 h1 (by decide)] at ha
  obtain ⟨t, rfl⟩ := absolute_from_eq_ret M cap _ rel s1 ha
  unfold sys_user_rcwd at hr
  split at hr
  · simp only [dentry.parent, Outcome.bind_eq_ret, strcpy_eq_ret] at hr
    obtain ⟨path, hloop, -, rfl⟩ := hr
    rw [rcwd_loop_eq_ret DEV _ _ _ hloop]
    have := leaf_to_root_path_length_le (dentry.child name parent)
    simp only [walk_string_of, List.length_append, List.length_singleton, List.nil_append,
      List.length_nil]
    omega
  · cases hr

/-- What `sys_user_rcwd` writes, whenever it returns: `"/"` for the root, and for another
entry the names from the entry up to just below the root, leaf first, each preceded by
`"/"`. -/
theorem sys_user_rcwd_eq_ret (DEV DEN ucap : Nat) (d : dentry) (s : List Char)
    (h : sys_user_rcwd DEV DEN ucap (some d) = Outcome.ret s) :
    s = d.rcwd_string := by
  cases d with
  | root name =>
    unfold sys_user_rcwd at h
    split at h
    · simp only [dentry.parent, strcpy_eq_ret] at h
      exact h.2
    · cases h
  | child name parent =>
    unfold sys_user_rcwd at h
    split at h
    · simp only [dentry.parent, Outcome.bind_eq_ret, strcpy_eq_ret] at h
      obtain ⟨path, hloop, -, rfl⟩ := h
      rw [rcwd_loop_eq_ret DEV _ _ _ hloop]
      simp [dentry.rcwd_string]
    · cases h

/-- C6, the code at a failing input: with the working directory `/a/b` (the root being
named `"/"`), `sys_user_relative_path_to_absolute` applied to `".."` writes `"/a//"`, not
the absolute path `"/a"` of the parent: after the name of the parent the loop appends
`"/"` and the name of the root.  Whatever the name of the root and the sizes of the
buffers, the string written is never `"/a"`. -/
theorem dotdot_from_a_b_is_not_parent_path :
    sys_user_relative_path_to_absolute 30 32 (some dir_a_b) [ '.', '.', NUL ]
      = Outcome.ret [ '/', 'a', '/', '/' ] ∧
    dir_a.absolute_path = [ '/', 'a' ] ∧
    ∀ (root_name : List Char) (MAX_DENTRY_NAME_LEN cap : Nat),
      sys_user_relative_path_to_absolute MAX_DENTRY_NAME_LEN cap
        (some (dentry.child [ 'b' ] (dentry.child [ 'a' ] (dentry.root root_name))))
        [ '.', '.', NUL ] ≠ Outcome.ret [ '/', 'a' ] := by
  refine ⟨by decide, by decide, ?_⟩
  intro root_name M cap h
  rw [relative_path_dotdot M cap _ _ rfl rfl] at h
  obtain ⟨t, ht⟩ := absolute_from_eq_ret M cap _ _ _ h
  have hlen := congrArg List.length ht
  simp [dentry.parent, walk_string_of, dentry.walk_string] at hlen

/-- C7, the code at a failing input: with the working directory `/a` (the root being named
`"/"`) and the relative path `"."` (stored with a second `NUL` after its terminator),
`sys_user_relative_path_to_absolute` writes `"/a//"` while `sys_user_rcwd` writes `"/a"`;
with nothing stored after the terminator of `"."`, the resolver reads past the end of the
string. -/
theorem dot_from_a_differs_from_rcwd :
    sys_user_relative_path_to_absolute 30 32 (some dir_a) [ '.', NUL, NUL ]
      = Outcome.ret [ '/', 'a', '/', '/' ] ∧
    sys_user_rcwd 32 30 30 (some dir_a) = Outcome.ret [ '/', 'a' ] ∧
    sys_user_relative_path_to_absolute 30 32 (some dir_a) [ '.', NUL ] = Outcome.undef := by
  decide

/-- C8, the code at a failing input: with the working directory `/a/b`, `sys_user_rcwd`
writes `"/b/a"` (leaf first), not the absolute path `"/a/b"`; it writes `"/"` at the root
and `"/a"` at `/a`. -/
theorem rcwd_from_a_b_is_leaf_first :
    sys_user_rcwd 32 30 30 (some dir_a_b) = Outcome.ret [ '/', 'b', '/', 'a' ] ∧
    dir_a_b.absolute_path = [ '/', 'a', '/', 'b' ] ∧
    sys_user_rcwd 32 30 30 (some root_dir) = Outcome.ret [ '/' ] ∧
    sys_user_rcwd 32 30 30 (some dir_a) = Outcome.ret [ '/', 'a' ] := by
  decide

/-- The string found at a pointer into a buffer that holds at least one character and does
not begin with `.`: the tail of `strcat`. -/
theorem strcat_ptr_slash (cap : Nat) (p t : List Char) (hstr : c_str p = some t)
    (hfit : t.length + 2 ≤ cap) :
    strcat_ptr cap [ '/' ] p = Outcome.ret ('/' :: t) := by
  rw [strcat_ptr_eq_ret]
  exact ⟨t, hstr, by simp only [List.length_singleton]; omega, rfl⟩

/-- C19, counterexample: at the root, with a buffer `absolutepath` of 30 bytes (the buffer
of `sys_user_open` when `MAX_DENTRY_NAME_LEN` is 30), the path `"../"` followed by 28
characters `x` does not resolve to `"/"` followed by the path without its first two
characters: that string takes 31 bytes with its terminator, and the unchecked `strcat`
writes past the end of the buffer. -/
theorem dotdot_at_root_overflows_buffer :
    sys_user_relative_path_to_absolute 30 30 (some root_dir)
        ([ '.', '.', '/' ] ++ List.replicate 28 'x' ++ [NUL])
      = Outcome.undef ∧
    sys_user_open 30 (probe_files 3)
        (fun _ => [ '.', '.', '/' ] ++ List.replicate 28 'x' ++ [NUL]) id (some root_dir) 0 0 []
      = Outcome.undef := by
  decide

/-- C19, amended: when the working directory is the root (`parent == NULL`) and the
relative path begins with `".."`, `sys_user_relative_path_to_absolute` moves `current_dir`
to the null parent and never dereferences it: the loop `while (current_dir)` runs no
iteration and leaves `"/"` in the buffer.  When the result and its terminator fit the
buffer `absolutepath`, the result is `"/"` followed by the relative path without its first
two characters; when that remainder itself begins with `'.'`, it is `"/"` followed by the
remainder without its first two characters (three when the remainder begins with
`".."`). -/
theorem dotdot_at_root_skips_walk (MAX_DENTRY_NAME_LEN cap : Nat)
    (root_name relativepath : List Char)
    (h0 : relativepath[0]? = some '.') (h1 : relativepath[1]? = some '.')
    (hM : MAX_DENTRY_NAME_LEN ≤ cap) (hcap : 2 ≤ cap) :
    (dentry.root root_name).parent = none ∧
    absolute_loop cap (dentry.root root_name).parent [ '/' ] = Outcome.ret [ '/' ] ∧
    (∀ (c0 : Char) (t : List Char), (relativepath.drop 2)[0]? = some c0 → c0 ≠ '.' →
      c_str (relativepath.drop 2) = some t → t.length + 2 ≤ cap →
      sys_user_relative_path_to_absolute MAX_DENTRY_NAME_LEN cap
        (some (dentry.root root_name)) relativepath = Outcome.ret ('/' :: t)) ∧
    (∀ (c1 : Char) (t : List Char), (relativepath.drop 2)[0]? = some '.' →
      (relativepath.drop 2)[1]? = some c1 → c1 ≠ '.' →
      c_str ((relativepath.drop 2).drop 2) = some t → t.length + 2 ≤ cap →
      sys_user_relative_path_to_absolute MAX_DENTRY_NAME_LEN cap
        (some (dentry.root root_name)) relativepath = Outcome.ret ('/' :: t)) ∧
    (∀ (t : List Char), (relativepath.drop 2)[0]? = some '.' →
      (relativepath.drop 2)[1]? = some '.' →
      c_str ((relativepath.drop 2).drop 3) = some t → t.length + 2 ≤ cap →
      sys_user_relative_path_to_absolute MAX_DENTRY_NAME_LEN cap
        (some (dentry.root root_name)) relativepath = Outcome.ret ('/' :: t)) := by
  have hstart : sys_user_relative_path_to_absolute MAX_DENTRY_NAME_LEN cap
      (some (dentry.root root_name)) relativepath
      = absolute_from MAX_DENTRY_NAME_LEN cap none (relativepath.drop 2) :=
    relative_path_dotdot MAX_DENTRY_NAME_LEN cap (dentry.root root_name) relativepath h0 h1
  have hcpy : strcpy cap [ '/' ] = Outcome.ret [ '/' ] := by
    unfold strcpy
    rw [if_pos (by simpa using hcap)]
  refine ⟨rfl, rfl, ?_, ?_, ?_⟩
  · intro c0 t hc0 hne hstr hfit
    rw [hstart]
    unfold absolute_from
    rw [if_pos hM, hcpy]
    simp only [Outcome.bind, absolute_loop, hc0, if_neg hne]
    exact strcat_ptr_slash cap _ t hstr hfit
  · intro c1 t hc0 hc1 hne hstr hfit
    rw [hstart]
    unfold absolute_from
    rw [if_pos hM, hcpy]
    simp only [Outcome.bind, absolute_loop, hc0, hc1, if_true, if_neg hne]
    exact strcat_ptr_slash cap _ t hstr hfit
  · intro t hc0 hc1 hstr hfit
    rw [hstart]
    unfold absolute_from
    rw [if_pos hM, hcpy]
    simp only [Outcome.bind, absolute_loop, hc0, hc1, if_true]
    exact strcat_ptr_slash cap _ t hstr hfit

/-- Witness for `dotdot_at_root_skips_walk`: at the root, `"../x"` resolves to `"//x"`. -/
theorem dotdot_at_root_skips_walk_witness :
    [ '.', '.', '/', 'x', NUL ][0]? = some '.' ∧ [ '.', '.', '/', 'x', NUL ][1]? = some '.' ∧
    30 ≤ 32 ∧ 2 ≤ 32 ∧
    sys_user_relative_path_to_absolute 30 32 (some root_dir) [ '.', '.', '/', 'x', NUL ]
      = Outcome.ret [ '/', '/', 'x' ] :=
  ⟨by decide, by decide, by decide, by decide,
    (dotdot_at_root_skips_walk 30 32 [ '/' ] [ '.', '.', '/', 'x', NUL ] (by decide)
      (by decide) (by decide) (by decide)).2.2.1 '/' [ '/', 'x' ] (by decide) (by decide)
      (by decide) (by decide)⟩

/-- C20: for every path and flags, `sys_user_open` hands the string found at the translated
address, unmodified, to `do_open` when its first character is not `'.'`, and otherwise
hands over exactly the string produced by `sys_user_relative_path_to_absolute` for that path
and the current working directory (into a buffer of `MAX_DENTRY_NAME_LEN` bytes); in both
cases it returns the result of `do_open` unchanged. -/
theorem sys_user_open_forwards {σ : Type} (MAX_DENTRY_NAME_LEN : Nat)
    (F : file_interface σ dentry) (kmem : Nat → List Char) (user_va_to_pa : Nat → Nat)
    (cwd : Option dentry) (pathva : Nat) (flags : Int) (s : σ) :
    (∀ (c0 : Char) (path : List Char), (kmem (user_va_to_pa pathva))[0]? = some c0 →
      c0 ≠ '.' → c_str (kmem (user_va_to_pa pathva)) = some path →
      sys_user_open MAX_DENTRY_NAME_LEN F kmem user_va_to_pa cwd pathva flags s
        = Outcome.ret (F.do_open s path flags)) ∧
    (∀ (absolute : List Char), (kmem (user_va_to_pa pathva))[0]? = some '.' →
      sys_user_relative_path_to_absolute MAX_DENTRY_NAME_LEN MAX_DENTRY_NAME_LEN cwd
        (kmem (user_va_to_pa pathva)) = Outcome.ret absolute →
      sys_user_open MAX_DENTRY_NAME_LEN F kmem user_va_to_pa cwd pathva flags s
        = Outcome.ret (F.do_open s absolute flags)) := by
  refine ⟨?_, ?_⟩
  · intro c0 path hc0 hne hstr
    unfold sys_user_open
    simp only [hc0, if_neg hne, hstr]
  · intro absolute hc0 habs
    unfold sys_user_open
    simp only [hc0, if_true, habs, Outcome.bind]

/-- Witness for `sys_user_open_forwards`: at the root, with a collaborator that records the
paths and answers 3, the path `"a"` reaches `do_open` as it is and the path `"./a"` reaches
it as `"//a"`, the string of the resolver. -/
theorem sys_user_open_forwards_witness :
    (mem_a (id 0))[0]? = some 'a' ∧ 'a' ≠ '.' ∧ c_str (mem_a (id 0)) = some [ 'a' ] ∧
    sys_user_open 30 (probe_files 3) mem_a id (some root_dir) 0 0 []
      = Outcome.ret (3, [[ 'a' ]]) ∧
    (mem_dot_a (id 0))[0]? = some '.' ∧
    sys_user_relative_path_to_absolute 30 30 (some root_dir) (mem_dot_a (id 0))
      = Outcome.ret [ '/', '/', 'a' ] ∧
    sys_user_open 30 (probe_files 3) mem_dot_a id (some root_dir) 0 0 []
      = Outcome.ret (3, [[ '/', '/', 'a' ]]) :=
  ⟨by decide, by decide, by decide,
    (sys_user_open_forwards 30 (probe_files 3) mem_a id (some root_dir) 0 0 []).1 'a' [ 'a' ]
      (by decide) (by decide) (by decide),
    by decide, by decide,
    (sys_user_open_forwards 30 (probe_files 3) mem_dot_a id (some root_dir) 0 0 []).2
      [ '/', '/', 'a' ] (by decide) (by decide)⟩

/-! ## Theorems: the dispatcher -/

/-- C9: with pairwise different case labels, for every syscall number `a0` that is not one
of the handled `SYS_user_*` numbers and for every argument tuple, `do_syscall` takes the
fatal (panic) path and produces no return value; for every handled number it yields exactly
what the one matching handler yields on the forwarded arguments.  For the two heap
handlers, which return a `uint64`, the value returned is the handler's value converted to
`long` (the same 64 bits: converting back gives the value again, and a value below
`2 ^ 63` is returned as it is) with the handler's state; after `sys_user_rcwd` and
`sys_user_ccwd` return, the value is `0` with the handler's state; a handler that does not
return makes the dispatcher not return in the same way. -/
theorem do_syscall_dispatch {K : Type} (N : syscall_numbers) (H : syscall_handlers K)
    (hN : N.distinct) (a0 a1 a2 a3 a4 a5 a6 a7 : Int) (s : K) :
    (a0 ∉ N.handled → do_syscall N H a0 a1 a2 a3 a4 a5 a6 a7 s = Outcome.fatal) ∧
    do_syscall N H N.SYS_user_print a1 a2 a3 a4 a5 a6 a7 s = H.sys_user_print a1 a2 s ∧
    do_syscall N H N.SYS_user_exit a1 a2 a3 a4 a5 a6 a7 s = H.sys_user_exit a1 s ∧
    do_syscall N H N.SYS_user_allocate_page a1 a2 a3 a4 a5 a6 a7 s =
      (match H.sys_user_allocate_page s with
       | Outcome.ret (v, s1) => Outcome.ret (to_int64 v, s1)
       | Outcome.fatal => Outcome.fatal
       | Outcome.undef => Outcome.undef) ∧
    do_syscall N H N.SYS_user_free_page a1 a2 a3 a4 a5 a6 a7 s =
      (match H.sys_user_free_page a1 s with
       | Outcome.ret (v, s1) => Outcome.ret (to_int64 v, s1)
       | Outcome.fatal => Outcome.fatal
       | Outcome.undef => Outcome.undef) ∧
    do_syscall N H N.SYS_user_fork a1 a2 a3 a4 a5 a6 a7 s = H.sys_user_fork s ∧
    do_syscall N H N.SYS_user_yield a1 a2 a3 a4 a5 a6 a7 s = H.sys_user_yield s ∧
    do_syscall N H N.SYS_user_open a1 a2 a3 a4 a5 a6 a7 s = H.sys_user_open a1 a2 s ∧
    do_syscall N H N.SYS_user_read a1 a2 a3 a4 a5 a6 a7 s = H.sys_user_read a1 a2 a3 s ∧
    do_syscall N H N.SYS_user_write a1 a2 a3 a4 a5 a6 a7 s = H.sys_user_write a1 a2 a3 s ∧
    do_syscall N H N.SYS_user_lseek a1 a2 a3 a4 a5 a6 a7 s = H.sys_user_lseek a1 a2 a3 s ∧
    do_syscall N H N.SYS_user_stat a1 a2 a3 a4 a5 a6 a7 s = H.sys_user_stat a1 a2 s ∧
    do_syscall N H N.SYS_user_disk_stat a1 a2 a3 a4 a5 a6 a7 s = H.sys_user_disk_stat a1 a2 s ∧
    do_syscall N H N.SYS_user_close a1 a2 a3 a4 a5 a6 a7 s = H.sys_user_close a1 s ∧
    do_syscall N H N.SYS_user_opendir a1 a2 a3 a4 a5 a6 a7 s = H.sys_user_opendir a1 s ∧
    do_syscall N H N.SYS_user_readdir a1 a2 a3 a4 a5 a6 a7 s = H.sys_user_readdir a1 a2 s ∧
    do_syscall N H N.SYS_user_mkdir a1 a2 a3 a4 a5 a6 a7 s = H.sys_user_mkdir a1 s ∧
    do_syscall N H N.SYS_user_closedir a1 a2 a3 a4 a5 a6 a7 s = H.sys_user_closedir a1 s ∧
    do_syscall N H N.SYS_user_link a1 a2 a3 a4 a5 a6 a7 s = H.sys_user_link a1 a2 s ∧
    do_syscall N H N.SYS_user_unlink a1 a2 a3 a4 a5 a6 a7 s = H.sys_user_unlink a1 s ∧
    do_syscall N H N.SYS_user_rcwd a1 a2 a3 a4 a5 a6 a7 s =
      (match H.sys_user_rcwd a1 s with
       | Outcome.ret (_, s1) => Outcome.ret (0, s1)
       | Outcome.fatal => Outcome.fatal
       | Outcome.undef => Outcome.undef) ∧
    do_syscall N H N.SYS_user_ccwd a1 a2 a3 a4 a5 a6 a7 s =
      (match H.sys_user_ccwd a1 s with
       | Outcome.ret (_, s1) => Outcome.ret (0, s1)
       | Outcome.fatal => Outcome.fatal
       | Outcome.undef => Outcome.undef) ∧
    (∀ v : Nat, v < U64 → to_u64 (to_int64 v) = v) ∧
    (∀ v : Nat, v < 2 ^ 63 → to_int64 v = (v : Int)) := by
  simp only [syscall_numbers.distinct, syscall_numbers.handled, List.nodup_cons,
    List.mem_cons, List.mem_singleton, not_or, List.not_mem_nil, not_false_eq_true,
    List.nodup_nil, and_true] at hN
  obtain ⟨⟨h0_1, h0_2, h0_3, h0_4, h0_5, h0_6, h0_7, h0_8, h0_9, h0_10, h0_11, h0_12, h0_13,
    h0_14, h0_15, h0_16, h0_17, h0_18, h0_19, h0_20⟩,
    ⟨h1_2, h1_3, h1_4, h1_5, h1_6, h1_7, h1_8, h1_9, h1_10, h1_11, h1_12, h1_13, h1_14, h1_15,
      h1_16, h1_17, h1_18, h1_19, h1_20⟩,
    ⟨h2_3, h2_4, h2_5, h2_6, h2_7, h2_8, h2_9, h2_10, h2_11, h2_12, h2_13, h2_14, h2_15, h2_16,
      h2_17, h2_18, h2_19, h2_20⟩,
    ⟨h3_4, h3_5, h3_6, h3_7, h3_8, h3_9, h3_10, h3_11, h3_12, h3_13, h3_14, h3_15, h3_16, h3_17,
      h3_18, h3_19, h3_20⟩,
    ⟨h4_5, h4_6, h4_7, h4_8, h4_9, h4_10, h4_11, h4_12, h4_13, h4_14, h4_15, h4_16, h4_17, h4_18,
      h4_19, h4_20⟩,
    ⟨h5_6, h5_7, h5_8, h5_9, h5_10, h5_11, h5_12, h5_13, h5_14, h5_15, h5_16, h5_17, h5_18,
      h5_19, h5_20⟩,
    ⟨h6_7, h6_8, h6_9, h6_10, h6_11, h6_12, h6_13, h6_14, h6_15, h6_16, h6_17, h6_18, h6_19, h6_20⟩,
    ⟨h7_8, h7_9, h7_10, h7_11, h7_12, h7_13, h7_14, h7_15, h7_16, h7_17, h7_18, h7_19, h7_20⟩,
    ⟨h8_9, h8_10, h8_11, h8_12, h8_13, h8_14, h8_15, h8_16, h8_17, h8_18, h8_19, h8_20⟩,
    ⟨h9_10, h9_11, h9_12, h9_13, h9_14, h9_15, h9_16, h9_17, h9_18, h9_19, h9_20⟩,
    ⟨h10_11, h10_12, h10_13, h10_14, h10_15, h10_16, h10_17, h10_18, h10_19, h10_20⟩,
    ⟨h11_12, h11_13, h11_14, h11_15, h11_16, h11_17, h11_18, h11_19, h11_20⟩,
    ⟨h12_13, h12_14, h12_15, h12_16, h12_17, h12_18, h12_19, h12_20⟩,
    ⟨h13_14, h13_15, h13_16, h13_17, h13_18, h13_19, h13_20⟩,
    ⟨h14_15, h14_16, h14_17, h14_18, h14_19, h14_20⟩,
    ⟨h15_16, h15_17, h15_18, h15_19, h15_20⟩,
    ⟨h16_17, h16_18, h16_19, h16_20⟩,
    ⟨h17_18, h17_19, h17_20⟩,
    ⟨h18_19, h18_20⟩,
    h19_20⟩ := hN
  refine ⟨?_, ?_, ?_, ?_, ?_, ?_, ?_, ?_, ?_, ?_, ?_, ?_, ?_, ?_, ?_, ?_, ?_, ?_, ?_, ?_, ?_, ?_,
    ?_, ?_⟩
  · intro h
    simp only [syscall_numbers.handled, List.mem_cons, List.mem_singleton, not_or,
      List.not_mem_nil, not_false_eq_true, and_true] at h
    simp [do_syscall, h]
  · unfold do_syscall
    rw [if_pos rfl]
  · unfold do_syscall
    rw [if_neg (Ne.symm h0_1), if_pos rfl]
  · unfold do_syscall
    rw [if_neg (Ne.symm h0_2), if_neg (Ne.symm h1_2), if_pos rfl]
    unfold return_u64
    generalize H.sys_user_allocate_page s = x
    rcases x with ⟨v, s1⟩ | _ | _ <;> rfl
  · unfold do_syscall
    rw [if_neg (Ne.symm h0_3), if_neg (Ne.symm h1_3), if_neg (Ne.symm h2_3), if_pos rfl]
    unfold return_u64
    generalize H.sys_user_free_page a1 s = x
    rcases x with ⟨v, s1⟩ | _ | _ <;> rfl
  · unfold do_syscall
    rw [if_neg (Ne.symm h0_4), if_neg (Ne.symm h1_4), if_neg (Ne.symm h2_4),
      if_neg (Ne.symm h3_4), if_pos rfl]
  · unfold do_syscall
    rw [if_neg (Ne.symm h0_5), if_neg (Ne.symm h1_5), if_neg (Ne.symm h2_5),
      if_neg (Ne.symm h3_5), if_neg (Ne.symm h4_5), if_pos rfl]
  · unfold do_syscall
    rw [if_neg (Ne.symm h0_6), if_neg (Ne.symm h1_6), if_neg (Ne.symm h2_6),
      if_neg (Ne.symm h3_6), if_neg (Ne.symm h4_6), if_neg (Ne.symm h5_6), if_pos rfl]
  · unfold do_syscall
    rw [if_neg (Ne.symm h0_7), if_neg (Ne.symm h1_7), if_neg (Ne.symm h2_7),
      if_neg (Ne.symm h3_7), if_neg (Ne.symm h4_7), if_neg (Ne.symm h5_7), if_neg (Ne.symm h6_7),
      if_pos rfl]
  · unfold do_syscall
    rw [if_neg (Ne.symm h0_8), if_neg (Ne.symm h1_8), if_neg (Ne.symm h2_8),
      if_neg (Ne.symm h3_8), if_neg (Ne.symm h4_8), if_neg (Ne.symm h5_8), if_neg (Ne.symm h6_8),
      if_neg (Ne.symm h7_8), if_pos rfl]
  · unfold do_syscall
    rw [if_neg (Ne.symm h0_9), if_neg (Ne.symm h1_9), if_neg (Ne.symm h2_9),
      if_neg (Ne.symm h3_9), if_neg (Ne.symm h4_9), if_neg (Ne.symm h5_9), if_neg (Ne.symm h6_9),
      if_neg (Ne.symm h7_9), if_neg (Ne.symm h8_9), if_pos rfl]
  · unfold do_syscall
    rw [if_neg (Ne.symm h0_10), if_neg (Ne.symm h1_10), if_neg (Ne.symm h2_10),
      if_neg (Ne.symm h3_10), if_neg (Ne.symm h4_10), if_neg (Ne.symm h5_10),
      if_neg (Ne.symm h6_10), if_neg (Ne.symm h7_10), if_neg (Ne.symm h8_10),
      if_neg (Ne.symm h9_10), if_pos rfl]
  · unfold do_syscall
    rw [if_neg (Ne.symm h0_11), if_neg (Ne.symm h1_11), if_neg (Ne.symm h2_11),
      if_neg (Ne.symm h3_11), if_neg (Ne.symm h4_11), if_neg (Ne.symm h5_11),
      if_neg (Ne.symm h6_11), if_neg (Ne.symm h7_11), if_neg (Ne.symm h8_11),
      if_neg (Ne.symm h9_11), if_neg (Ne.symm h10_11), if_pos rfl]
  · unfold do_syscall
    rw [if_neg (Ne.symm h0_12), if_neg (Ne.symm h1_12), if_neg (Ne.symm h2_12),
      if_neg (Ne.symm h3_12), if_neg (Ne.symm h4_12), if_neg (Ne.symm h5_12),
      if_neg (Ne.symm h6_12), if_neg (Ne.symm h7_12), if_neg (Ne.symm h8_12),
      if_neg (Ne.symm h9_12), if_neg (Ne.symm h10_12), if_neg (Ne.symm h11_12), if_pos rfl]
  · unfold do_syscall
    rw [if_neg (Ne.symm h0_13), if_neg (Ne.symm h1_13), if_neg (Ne.symm h2_13),
      if_neg (Ne.symm h3_13), if_neg (Ne.symm h4_13), if_neg (Ne.symm h5_13),
      if_neg (Ne.symm h6_13), if_neg (Ne.symm h7_13), if_neg (Ne.symm h8_13),
      if_neg (Ne.symm h9_13), if_neg (Ne.symm h10_13), if_neg (Ne.symm h11_13),
      if_neg (Ne.symm h12_13), if_pos rfl]
  · unfold do_syscall
    rw [if_neg (Ne.symm h0_14), if_neg (Ne.symm h1_14), if_neg (Ne.symm h2_14),
      if_neg (Ne.symm h3_14), if_neg (Ne.symm h4_14), if_neg (Ne.symm h5_14),
      if_neg (Ne.symm h6_14), if_neg (Ne.symm h7_14), if_neg (Ne.symm h8_14),
      if_neg (Ne.symm h9_14), if_neg (Ne.symm h10_14), if_neg (Ne.symm h11_14),
      if_neg (Ne.symm h12_14), if_neg (Ne.symm h13_14), if_pos rfl]
  · unfold do_syscall
    rw [if_neg (Ne.symm h0_15), if_neg (Ne.symm h1_15), if_neg (Ne.symm h2_15),
      if_neg (Ne.symm h3_15), if_neg (Ne.symm h4_15), if_neg (Ne.symm h5_15),
      if_neg (Ne.symm h6_15), if_neg (Ne.symm h7_15), if_neg (Ne.symm h8_15),
      if_neg (Ne.symm h9_15), if_neg (Ne.symm h10_15), if_neg (Ne.symm h11_15),
      if_neg (Ne.symm h12_15), if_neg (Ne.symm h13_15), if_neg (Ne.symm h14_15), if_pos rfl]
  · unfold do_syscall
    rw [if_neg (Ne.symm h0_16), if_neg (Ne.symm h1_16), if_neg (Ne.symm h2_16),
      if_neg (Ne.symm h3_16), if_neg (Ne.symm h4_16), if_neg (Ne.symm h5_16),
      if_neg (Ne.symm h6_16), if_neg (Ne.symm h7_16), if_neg (Ne.symm h8_16),
      if_neg (Ne.symm h9_16), if_neg (Ne.symm h10_16), if_neg (Ne.symm h11_16),
      if_neg (Ne.symm h12_16), if_neg (Ne.symm h13_16), if_neg (Ne.symm h14_16),
      if_neg (Ne.symm h15_16), if_pos rfl]
  · unfold do_syscall
    rw [if_neg (Ne.symm h0_17), if_neg (Ne.symm h1_17), if_neg (Ne.symm h2_17),
      if_neg (Ne.symm h3_17), if_neg (Ne.symm h4_17), if_neg (Ne.symm h5_17),
      if_neg (Ne.symm h6_17), if_neg (Ne.symm h7_17), if_neg (Ne.symm h8_17),
      if_neg (Ne.symm h9_17), if_neg (Ne.symm h10_17), if_neg (Ne.symm h11_17),
      if_neg (Ne.symm h12_17), if_neg (Ne.symm h13_17), if_neg (Ne.symm h14_17),
      if_neg (Ne.symm h15_17), if_neg (Ne.symm h16_17), if_pos rfl]
  · unfold do_syscall
    rw [if_neg (Ne.symm h0_18), if_neg (Ne.symm h1_18), if_neg (Ne.symm h2_18),
      if_neg (Ne.symm h3_18), if_neg (Ne.symm h4_18), if_neg (Ne.symm h5_18),
      if_neg (Ne.symm h6_18), if_neg (Ne.symm h7_18), if_neg (Ne.symm h8_18),
      if_neg (Ne.symm h9_18), if_neg (Ne.symm h10_18), if_neg (Ne.symm h11_18),
      if_neg (Ne.symm h12_18), if_neg (Ne.symm h13_18), if_neg (Ne.symm h14_18),
      if_neg (Ne.symm h15_18), if_neg (Ne.symm h16_18), if_neg (Ne.symm h17_18), if_pos rfl]
  · unfold do_syscall
    rw [if_neg (Ne.symm h0_19), if_neg (Ne.symm h1_19), if_neg (Ne.symm h2_19),
      if_neg (Ne.symm h3_19), if_neg (Ne.symm h4_19), if_neg (Ne.symm h5_19),
      if_neg (Ne.symm h6_19), if_neg (Ne.symm h7_19), if_neg (Ne.symm h8_19),
      if_neg (Ne.symm h9_19), if_neg (Ne.symm h10_19), if_neg (Ne.symm h11_19),
      if_neg (Ne.symm h12_19), if_neg (Ne.symm h13_19), if_neg (Ne.symm h14_19),
      if_neg (Ne.symm h15_19), if_neg (Ne.symm h16_19), if_neg (Ne.symm h17_19),
      if_neg (Ne.symm h18_19), if_pos rfl]
    unfold return_zero
    generalize H.sys_user_rcwd a1 s = x
    rcases x with ⟨u, s1⟩ | _ | _ <;> rfl
  · unfold do_syscall
    rw [if_neg (Ne.symm h0_20), if_neg (Ne.symm h1_20), if_neg (Ne.symm h2_20),
      if_neg (Ne.symm h3_20), if_neg (Ne.symm h4_20), if_neg (Ne.symm h5_20),
      if_neg (Ne.symm h6_20), if_neg (Ne.symm h7_20), if_neg (Ne.symm h8_20),
      if_neg (Ne.symm h9_20), if_neg (Ne.symm h10_20), if_neg (Ne.symm h11_20),
      if_neg (Ne.symm h12_20), if_neg (Ne.symm h13_20), if_neg (Ne.symm h14_20),
      if_neg (Ne.symm h15_20), if_neg (Ne.symm h16_20), if_neg (Ne.symm h17_20),
      if_neg (Ne.symm h18_20), if_neg (Ne.symm h19_20), if_pos rfl]
    unfold return_zero
    generalize H.sys_user_ccwd a1 s = x
    rcases x with ⟨u, s1⟩ | _ | _ <;> rfl
  · intro v hv
    unfold to_int64 to_u64
    rw [Nat.mod_eq_of_lt hv]
    unfold U64 at hv ⊢
    split
    · omega
    · omega
  · intro v hv
    unfold to_int64
    have hv2 : v % U64 = v := Nat.mod_eq_of_lt (by unfold U64; omega)
    rw [hv2, if_pos hv]

/-- Witness for `do_syscall_dispatch`: with the cases numbered from 64 on and handlers that
return `100 + k` in the case number `k` of the switch, the number 999 takes the fatal path,
the numbers 66 and 67 (`SYS_user_allocate_page`, `SYS_user_free_page`) yield 103 and 104,
the values of the two heap handlers, the number 71 (`SYS_user_read`) yields 108, and the
numbers 83 and 84 (`SYS_user_rcwd`, `SYS_user_ccwd`) yield 0. -/
theorem do_syscall_dispatch_witness :
    sample_numbers.distinct ∧ (999 : Int) ∉ sample_numbers.handled ∧
    do_syscall sample_numbers sample_handlers 999 1 2 3 4 5 6 7 0 = Outcome.fatal ∧
    sample_handlers.sys_user_allocate_page 0 = Outcome.ret (103, 3) ∧
    do_syscall sample_numbers sample_handlers 66 1 2 3 4 5 6 7 0 = Outcome.ret (103, 3) ∧
    sample_handlers.sys_user_free_page 1 0 = Outcome.ret (104, 4) ∧
    do_syscall sample_numbers sample_handlers 67 1 2 3 4 5 6 7 0 = Outcome.ret (104, 4) ∧
    do_syscall sample_numbers sample_handlers 71 1 2 3 4 5 6 7 0 = Outcome.ret (108, 8) ∧
    do_syscall sample_numbers sample_handlers 83 1 2 3 4 5 6 7 0 = Outcome.ret (0, 20) ∧
    do_syscall sample_numbers sample_handlers 84 1 2 3 4 5 6 7 0 = Outcome.ret (0, 21) ∧
    (103 : Nat) < U64 ∧ to_u64 (to_int64 103) = 103 :=
  ⟨by decide, by decide,
    (do_syscall_dispatch sample_numbers sample_handlers (by decide) 999 1 2 3 4 5 6 7 0).1
      (by decide),
    by decide,
    (do_syscall_dispatch sample_numbers sample_handlers (by decide) 999 1 2 3 4 5 6 7
      0).2.2.2.1,
    by decide,
    (do_syscall_dispatch sample_numbers sample_handlers (by decide) 999 1 2 3 4 5 6 7
      0).2.2.2.2.1,
    by decide, by decide, by decide, by decide,
    (do_syscall_dispatch sample_numbers sample_handlers (by decide) 999 1 2 3 4 5 6 7
      0).2.2.2.2.2.2.2.2.2.2.2.2.2.2.2.2.2.2.2.2.2.2.1 103 (by decide)⟩

/-! ## Theorems: the change-directory syscall -/

/-- When `do_opendir` answers with a negative descriptor, `sys_user_ccwd` does not return:
the read `opened_files[tmp]` falls outside the table. -/
theorem sys_user_ccwd_negative_descriptor {σ : Type} (DEV DEN : Nat)
    (F : file_interface σ dentry) (kmem : Nat → List Char) (user_va_to_pa : Nat → Nat)
    (cwd : Option dentry) (path_to : Nat) (s : σ)
    (hneg : ∀ (s1 : σ) (path : List Char), (F.do_opendir s1 path).1 < 0)
    (r : Option dentry × σ) :
    sys_user_ccwd DEV DEN F kmem user_va_to_pa cwd path_to s ≠ Outcome.ret r := by
  intro h
  unfold sys_user_ccwd at h
  rw [Outcome.bind_eq_ret] at h
  obtain ⟨path, -, h2⟩ := h
  have := hneg s path
  rw [if_neg (by omega)] at h2
  cases h2

/-- Whatever the handlers, the case `SYS_user_ccwd` of `do_syscall` yields 0 when the
handler returns (here with the cases numbered from 64 on). -/
theorem do_syscall_ccwd_eq {K : Type} (H : syscall_handlers K)
    (a1 a2 a3 a4 a5 a6 a7 : Int) (s : K) :
    do_syscall sample_numbers H 84 a1 a2 a3 a4 a5 a6 a7 s
      = (match H.sys_user_ccwd a1 s with
         | Outcome.ret (_, s1) => Outcome.ret (0, s1)
         | Outcome.fatal => Outcome.fatal
         | Outcome.undef => Outcome.undef) := by
  simp only [do_syscall, sample_numbers, return_zero]
  generalize H.sys_user_ccwd a1 s = x
  rcases x with ⟨u, s1⟩ | _ | _ <;> rfl

/-- C17, the code at a failing input: with the working directory at the root, the path
`"a"` and a collaborator whose `do_opendir` fails with `-1`, `sys_user_ccwd` goes on to read
`opened_files[-1]`, outside the table, to replace `cwd`; neither it nor the
change-directory syscall (number 84 when the cases are numbered from 64 on) returns a
negative value with `cwd` kept.  When `do_opendir` succeeds with the descriptor 1 the
syscall sets `cwd` to `/a` and returns 0, the only value it ever returns. -/
theorem ccwd_ignores_failed_opendir :
    (probe_files (-1)).do_opendir [] [ '/', '/', 'a' ] = (-1, [[ '/', '/', 'a' ]]) ∧
    sys_user_ccwd 32 30 (probe_files (-1)) mem_a id (some root_dir) 0 [] = Outcome.undef ∧
    do_syscall sample_numbers (ccwd_handlers 32 30 (probe_files (-1)) mem_a id)
      84 0 0 0 0 0 0 0 (some root_dir, []) = Outcome.undef ∧
    do_syscall sample_numbers (ccwd_handlers 32 30 (probe_files 1) mem_a id)
      84 0 0 0 0 0 0 0 (some root_dir, [])
      = Outcome.ret (0, (some dir_a, [[ '/', '/', 'a' ]])) := by
  decide

end PKE
